import Mathlib

/-!
Verification of the rs-chinese-chess engine core (`src/lib/engine`).

The data model, move rules, position primitives and the search are
shallowly embedded from `board.rs`, `search.rs`, `constant.rs` and
`engine.rs`.  Rust `i32` coordinates and scores become `Int`; the
`u64` Zobrist hashes become `Nat` (all operations on them are XOR and
AND masks, which never leave the 64-bit range).  The 9x10 grid of the
Rust `Board` is embedded as a function `Int → Int → Chess`; all reads
in the Rust code go through `chess_at`, which returns `Chess.None` off
the board, and that guard is reproduced here.

The module `zobrist.rs` is declared in `lib.rs` but is not part of the
sources; the key-table type `Zobristable` is therefore modelled from
the specification (see its doc comment).
-/

namespace XQ

/-- The seven piece kinds, from `board.rs` `ChessType`. -/
inductive ChessType where
  | King
  | Advisor
  | Bishop
  | Knight
  | Rook
  | Cannon
  | Pawn
deriving DecidableEq, Repr

/-- A square content: a black piece, a red piece, or empty.  From `board.rs` `Chess`. -/
inductive Chess where
  | Black (ct : ChessType)
  | Red (ct : ChessType)
  | None
deriving DecidableEq, Repr

/-- The two sides, from `board.rs` `Player`. -/
inductive Player where
  | Red
  | Black
deriving DecidableEq, Repr

/-- `Player::next`. -/
def Player.next : Player → Player
  | .Red => .Black
  | .Black => .Red

/-- `ChessType::material_value`. -/
def ChessType.material_value : ChessType → Int
  | .King => 10000
  | .Advisor => 20
  | .Bishop => 20
  | .Knight => 90
  | .Rook => 200
  | .Cannon => 100
  | .Pawn => 10

/-- `Chess::chess_type`. -/
def Chess.chess_type : Chess → Option ChessType
  | .Black ct => some ct
  | .Red ct => some ct
  | .None => none

/-- `Chess::player`. -/
def Chess.player : Chess → Option Player
  | .Black _ => some Player.Black
  | .Red _ => some Player.Red
  | .None => none

/-- `Chess::material_value` (0 for an empty square). -/
def Chess.material_value (c : Chess) : Int :=
  match c.chess_type with
  | some ct => ct.material_value
  | none => 0

/-- `Chess::belong_to`, as a boolean test. -/
def Chess.belong_to (c : Chess) (p : Player) : Bool :=
  c.player == some p

/-- Board coordinates, from `board.rs` `Position` (`i32` row and column). -/
structure Position where
  row : Int
  col : Int
deriving DecidableEq, Repr

def BOARD_WIDTH : Int := 9
def BOARD_HEIGHT : Int := 10

namespace Position

def up (p : Position) (delta : Int) : Position := ⟨p.row - delta, p.col⟩
def down (p : Position) (delta : Int) : Position := ⟨p.row + delta, p.col⟩
def left (p : Position) (delta : Int) : Position := ⟨p.row, p.col - delta⟩
def right (p : Position) (delta : Int) : Position := ⟨p.row, p.col + delta⟩
/-- `Position::flip` — rotate the board 180 degrees. -/
def flip (p : Position) : Position := ⟨BOARD_HEIGHT - 1 - p.row, BOARD_WIDTH - 1 - p.col⟩

end Position

/-- A move record, from `board.rs` `Move`. -/
structure Move where
  player : Player
  from_pos : Position
  to_pos : Position
  chess : Chess
  capture : Chess
deriving DecidableEq, Repr

/-- `in_board`. -/
def in_board (pos : Position) : Bool :=
  0 ≤ pos.row && pos.row < BOARD_HEIGHT && 0 ≤ pos.col && pos.col < BOARD_WIDTH

/-- `in_country` — the "own half" test. -/
def in_country (row : Int) (player : Player) : Bool :=
  let base_row : Int := if player = .Red then BOARD_HEIGHT - 1 else 0
  (row - base_row).natAbs < (BOARD_HEIGHT / 2).toNat

/-- `in_palace`. -/
def in_palace (pos : Position) (player : Player) : Bool :=
  if player = .Black then
    0 ≤ pos.row && pos.row < 3 && 3 ≤ pos.col && pos.col < 6
  else
    7 ≤ pos.row && pos.row < BOARD_HEIGHT && 3 ≤ pos.col && pos.col < 6

/-- `KING_VALUE_TABLE`. -/
def KING_VALUE_TABLE : List (List Int) := [
  [0, 0, 0, 0, 0, 0, 0, 0, 0],
  [0, 0, 0, 0, 0, 0, 0, 0, 0],
  [0, 0, 0, 0, 0, 0, 0, 0, 0],
  [0, 0, 0, 0, 0, 0, 0, 0, 0],
  [0, 0, 0, 0, 0, 0, 0, 0, 0],
  [0, 0, 0, 0, 0, 0, 0, 0, 0],
  [0, 0, 0, 0, 0, 0, 0, 0, 0],
  [0, 0, 0, 1, 1, 1, 0, 0, 0],
  [0, 0, 0, 2, 2, 2, 0, 0, 0],
  [0, 0, 0, 11, 15, 11, 0, 0, 0]]

/-- `ADVISOR_VALUE_TABLE`. -/
def ADVISOR_VALUE_TABLE : List (List Int) := [
  [0, 0, 0, 0, 0, 0, 0, 0, 0],
  [0, 0, 0, 0, 0, 0, 0, 0, 0],
  [0, 0, 0, 0, 0, 0, 0, 0, 0],
  [0, 0, 0, 0, 0, 0, 0, 0, 0],
  [0, 0, 0, 0, 0, 0, 0, 0, 0],
  [0, 0, 0, 0, 0, 0, 0, 0, 0],
  [0, 0, 0, 0, 0, 0, 0, 0, 0],
  [0, 0, 0, 20, 0, 20, 0, 0, 0],
  [0, 0, 0, 0, 23, 0, 0, 0, 0],
  [0, 0, 0, 20, 0, 20, 0, 0, 0]]

/-- `BISHOP_VALUE_TABLE`. -/
def BISHOP_VALUE_TABLE : List (List Int) := [
  [0, 0, 0, 0, 0, 0, 0, 0, 0],
  [0, 0, 0, 0, 0, 0, 0, 0, 0],
  [0, 0, 0, 0, 0, 0, 0, 0, 0],
  [0, 0, 0, 0, 0, 0, 0, 0, 0],
  [0, 0, 0, 0, 0, 0, 0, 0, 0],
  [0, 0, 20, 0, 0, 0, 20, 0, 0],
  [0, 0, 0, 0, 0, 0, 0, 0, 0],
  [18, 0, 0, 0, 23, 0, 0, 0, 18],
  [0, 0, 0, 0, 0, 0, 0, 0, 0],
  [0, 0, 20, 0, 0, 0, 20, 0, 0]]

/-- `ROOK_VALUE_TABLE`. -/
def ROOK_VALUE_TABLE : List (List Int) := [
  [206, 208, 207, 213, 214, 213, 207, 208, 206],
  [206, 212, 209, 216, 233, 216, 209, 212, 206],
  [206, 208, 207, 214, 216, 214, 207, 208, 206],
  [206, 213, 213, 216, 216, 216, 213, 213, 206],
  [208, 211, 211, 214, 215, 214, 211, 211, 208],
  [208, 212, 212, 214, 215, 214, 212, 212, 208],
  [204, 209, 204, 212, 214, 212, 204, 209, 204],
  [198, 208, 204, 212, 212, 212, 204, 208, 198],
  [200, 208, 206, 212, 200, 212, 206, 208, 200],
  [194, 206, 204, 212, 200, 212, 204, 206, 194]]

/-- `KNIGHT_VALUE_TABLE`. -/
def KNIGHT_VALUE_TABLE : List (List Int) := [
  [90, 90, 90, 96, 90, 96, 90, 90, 90],
  [90, 96, 103, 97, 94, 97, 103, 96, 90],
  [92, 98, 99, 103, 99, 103, 99, 98, 92],
  [93, 108, 100, 107, 100, 107, 100, 108, 93],
  [90, 100, 99, 103, 104, 103, 99, 100, 90],
  [90, 98, 101, 102, 103, 102, 101, 98, 90],
  [92, 94, 98, 95, 98, 95, 98, 94, 92],
  [93, 92, 94, 95, 92, 95, 94, 92, 93],
  [85, 90, 92, 93, 78, 93, 92, 90, 85],
  [88, 85, 90, 88, 90, 88, 90, 85, 88]]

/-- `CANNON_VALUE_TABLE`. -/
def CANNON_VALUE_TABLE : List (List Int) := [
  [100, 100, 96, 91, 90, 91, 96, 100, 100],
  [98, 98, 96, 92, 89, 92, 96, 98, 98],
  [97, 97, 96, 91, 92, 91, 96, 97, 97],
  [96, 99, 99, 98, 100, 98, 99, 99, 96],
  [96, 96, 96, 96, 100, 96, 96, 96, 96],
  [95, 96, 99, 96, 100, 96, 99, 96, 95],
  [96, 96, 96, 96, 96, 96, 96, 96, 96],
  [97, 96, 100, 99, 101, 99, 100, 96, 97],
  [96, 97, 98, 98, 98, 98, 98, 97, 96],
  [96, 96, 97, 99, 99, 99, 97, 96, 96]]

/-- `PAWN_VALUE_TABLE`. -/
def PAWN_VALUE_TABLE : List (List Int) := [
  [9, 9, 9, 11, 13, 11, 9, 9, 9],
  [19, 24, 34, 42, 44, 42, 34, 24, 19],
  [19, 24, 32, 37, 37, 37, 32, 24, 19],
  [19, 23, 27, 29, 30, 29, 27, 23, 19],
  [14, 18, 20, 27, 29, 27, 20, 18, 14],
  [7, 0, 13, 0, 16, 0, 13, 0, 7],
  [7, 0, 7, 0, 15, 0, 7, 0, 7],
  [0, 0, 0, 0, 0, 0, 0, 0, 0],
  [0, 0, 0, 0, 0, 0, 0, 0, 0],
  [0, 0, 0, 0, 0, 0, 0, 0, 0]]

/-- Value-table lookup at a position (Rust indexes the 10x9 array with
`as usize` casts; all uses are at on-board coordinates). -/
def tableAt (t : List (List Int)) (pos : Position) : Int :=
  (t.getD pos.row.toNat []).getD pos.col.toNat 0

def INITIATIVE_BONUS : Int := 3

/-- `constant.rs` `MIN`. -/
def MIN : Int := -99999
/-- `constant.rs` `MAX`. -/
def MAX : Int := 99999
/-- `constant.rs` `RECORD_SIZE` (`0x1FFFFE`). -/
def RECORD_SIZE : Nat := 0x1FFFFE
/-- `constant.rs` `MAX_DEPTH`. -/
def MAX_DEPTH : Int := 64

end XQ

namespace XQ

/-- The 9x10 grid, embedded as a total function on `i32` coordinates.
All reads in the Rust code go through `Board::chess_at`, which returns
`Chess::None` off the board. -/
abbrev Grid := Int → Int → Chess

/-- Modelled from the spec: the module `zobrist.rs` is referenced by
`lib.rs` but is absent from the sources.  Section 4.1 of the
specification describes a `Zobristable` as a table of 64-bit keys, one
per (piece-kind x colour, square), plus a single key for
"side-to-move is Black"; two independently seeded instances exist
(`ZOBRIST_TABLE` and `ZOBRIST_TABLE_LOCK`).  The keys are arbitrary
here: every theorem quantifies over the table. -/
structure Zobristable where
  key : Chess → Position → Nat
  turnKey : Nat

namespace Zobristable

/-- Modelled from the spec: `hash_of(grid, turn)` — "XOR-fold every
occupied-square key plus the side-to-move key if turn is Black"
(the Rust name is `calc_chesses`). -/
def calc_chesses (t : Zobristable) (g : Grid) (turn : Player) : Nat :=
  let h := (List.range 10).foldl (fun h i =>
    (List.range 9).foldl (fun h j =>
      let c := g (i : Int) (j : Int)
      if c ≠ Chess.None then h ^^^ t.key c ⟨(i : Int), (j : Int)⟩ else h) h) 0
  if turn = .Black then h ^^^ t.turnKey else h

/-- Modelled from the spec: `apply(h, move)` — "XOR out
`(moved_piece, from)`; XOR in `(moved_piece, to)`; if captured piece is
non-empty, XOR out `(captured_piece, to)`; XOR in the side-to-move
key." -/
def apply_move (t : Zobristable) (h : Nat) (m : Move) : Nat :=
  h ^^^ t.key m.chess m.from_pos ^^^ t.key m.chess m.to_pos
    ^^^ (if m.capture ≠ Chess.None then t.key m.capture m.to_pos else 0)
    ^^^ t.turnKey

/-- Modelled from the spec: "`undo` is identical (XOR is an involution)". -/
def undo_move (t : Zobristable) (h : Nat) (m : Move) : Nat :=
  t.apply_move h m

end Zobristable

/-- The game state, from `board.rs` `Board`.  The search bookkeeping
that `search.rs` keeps in `SearchState` is embedded separately; the
fields kept here are exactly the ones the embedded `Board` methods
read or write. -/
structure Board where
  chesses : Grid
  turn : Player
  move_history : List Move
  zobrist_history : List Nat
  check_history : List Bool
  zobrist_value : Nat
  zobrist_value_lock : Nat
  distance : Int
  vl_red : Int
  vl_black : Int

namespace Board

/-- `Board::chess_at` — `Chess::None` off the board. -/
def chess_at (b : Board) (pos : Position) : Chess :=
  if in_board pos then b.chesses pos.row pos.col else Chess.None

/-- `Board::set_chess` — unchecked write (the Rust version indexes the
array directly; every call site in the embedded code is on-board). -/
def set_chess (b : Board) (pos : Position) (chess : Chess) : Board :=
  { b with chesses := fun r c => if r = pos.row ∧ c = pos.col then chess else b.chesses r c }

/-- `Board::has_chess_between` (only meaningful on a shared row or column). -/
def has_chess_between (b : Board) (posa posb : Position) : Bool :=
  if posa.row = posb.row then
    (List.range (max posa.col posb.col - min posa.col posb.col - 1).toNat).any fun k =>
      (b.chess_at ⟨posa.row, min posa.col posb.col + 1 + (k : Int)⟩).chess_type.isSome
  else if posa.col = posb.col then
    (List.range (max posa.row posb.row - min posa.row posb.row - 1).toNat).any fun k =>
      (b.chess_at ⟨min posa.row posb.row + 1 + (k : Int), posa.col⟩).chess_type.isSome
  else false

/-- `Board::count_chess_between`. -/
def count_chess_between (b : Board) (posa posb : Position) : Int :=
  if posa.row = posb.row then
    ((List.range (max posa.col posb.col - min posa.col posb.col - 1).toNat).filter fun k =>
      (b.chess_at ⟨posa.row, min posa.col posb.col + 1 + (k : Int)⟩).chess_type.isSome).length
  else if posa.col = posb.col then
    ((List.range (max posa.row posb.row - min posa.row posb.row - 1).toNat).filter fun k =>
      (b.chess_at ⟨min posa.row posb.row + 1 + (k : Int), posa.col⟩).chess_type.isSome).length
  else 0

/-- `Board::count_chess` — like `count_chess_between`, but the `else`
branch scans the column whenever the rows differ (its callers only ever
pass aligned positions). -/
def count_chess (b : Board) (from_pos to_pos : Position) : Int :=
  if from_pos.row = to_pos.row then
    ((List.range (max from_pos.col to_pos.col - min from_pos.col to_pos.col - 1).toNat).filter fun k =>
      b.chess_at ⟨from_pos.row, min from_pos.col to_pos.col + 1 + (k : Int)⟩ ≠ Chess.None).length
  else
    ((List.range (max from_pos.row to_pos.row - min from_pos.row to_pos.row - 1).toNat).filter fun k =>
      b.chess_at ⟨min from_pos.row to_pos.row + 1 + (k : Int), from_pos.col⟩ ≠ Chess.None).length

/-- `Board::king_position` — row-major scan of the palace squares. -/
def king_position (b : Board) (player : Player) : Option Position :=
  if player = .Black then
    ((List.range 3).flatMap fun i => (List.range 3).map fun j =>
      Position.mk (i : Int) ((j : Int) + 3)).find? fun p =>
      b.chess_at p == Chess.Black ChessType.King
  else
    ((List.range 3).flatMap fun i => (List.range 3).map fun j =>
      Position.mk ((i : Int) + 7) ((j : Int) + 3)).find? fun p =>
      b.chess_at p == Chess.Red ChessType.King

/-- `Board::king_eye_to_eye` — the flying-general test. -/
def king_eye_to_eye (b : Board) : Bool :=
  match b.king_position .Red, b.king_position .Black with
  | some posa, some posb =>
    if posa.col = posb.col then !b.has_chess_between posa posb else false
  | _, _ => false

end Board

end XQ

namespace XQ

/-- Rook-style slide helper: the targets pushed by the Rust loops
`for delta in 1..bound { push(step(delta)); if occupied { break } }`
(`count` is the number of iterations of the loop). -/
def slideTargets (b : Board) (step : Int → Position) : Nat → Int → List Position
  | 0, _ => []
  | n + 1, delta =>
    let p := step delta
    if b.chess_at p ≠ Chess.None then [p] else p :: slideTargets b step n (delta + 1)

/-- Cannon-style slide helper: empty squares before the screen are
non-capture targets; after the screen the scan continues until the
first occupied square, which is pushed. -/
def cannonTargets (b : Board) (step : Int → Position) : Nat → Int → Bool → List Position
  | 0, _, _ => []
  | n + 1, delta, has_chess =>
    let p := step delta
    if !has_chess then
      if b.chess_at p ≠ Chess.None then cannonTargets b step n (delta + 1) true
      else p :: cannonTargets b step n (delta + 1) false
    else
      if b.chess_at p ≠ Chess.None then [p]
      else cannonTargets b step n (delta + 1) true

namespace Board

/-- `Board::generate_move_for_chess_type` — candidate target squares of
a piece kind from a base square (board-edge and palace filtering is
done by the callers). -/
def generate_move_for_chess_type (b : Board) (ct : ChessType) (position_base : Position) :
    List Position :=
  match ct with
  | .King =>
    [position_base.up 1, position_base.down 1, position_base.left 1, position_base.right 1]
  | .Advisor =>
    [(position_base.up 1).left 1, (position_base.up 1).right 1,
     (position_base.down 1).left 1, (position_base.down 1).right 1]
  | .Bishop =>
    (if b.chess_at ((position_base.up 1).left 1) = Chess.None then
      [(position_base.up 2).left 2] else []) ++
    (if b.chess_at ((position_base.up 1).right 1) = Chess.None then
      [(position_base.up 2).right 2] else []) ++
    (if b.chess_at ((position_base.down 1).left 1) = Chess.None then
      [(position_base.down 2).left 2] else []) ++
    (if b.chess_at ((position_base.down 1).right 1) = Chess.None then
      [(position_base.down 2).right 2] else [])
  | .Knight =>
    let upPair := if b.chess_at (position_base.up 1) = Chess.None then
      [(position_base.up 2).left 1, (position_base.up 2).right 1] else []
    let downPair := if b.chess_at (position_base.down 1) = Chess.None then
      [(position_base.down 2).left 1, (position_base.down 2).right 1] else []
    (if b.turn = .Red then upPair ++ downPair else downPair ++ upPair) ++
    (if b.chess_at (position_base.left 1) = Chess.None then
      [(position_base.up 1).left 2, (position_base.down 1).left 2] else []) ++
    (if b.chess_at (position_base.right 1) = Chess.None then
      [(position_base.up 1).right 2, (position_base.down 1).right 2] else [])
  | .Rook =>
    slideTargets b (position_base.up ·) position_base.row.toNat 1 ++
    slideTargets b (position_base.down ·) (BOARD_HEIGHT - position_base.row - 1).toNat 1 ++
    slideTargets b (position_base.left ·) position_base.col.toNat 1 ++
    slideTargets b (position_base.right ·) (BOARD_WIDTH - position_base.col - 1).toNat 1
  | .Cannon =>
    cannonTargets b (position_base.up ·) position_base.row.toNat 1 false ++
    cannonTargets b (position_base.down ·) (BOARD_HEIGHT - position_base.row - 1).toNat 1 false ++
    cannonTargets b (position_base.left ·) position_base.col.toNat 1 false ++
    cannonTargets b (position_base.right ·) (BOARD_WIDTH - position_base.col - 1).toNat 1 false
  | .Pawn =>
    (if !(in_country position_base.row b.turn) then
      [position_base.left 1, position_base.right 1] else []) ++
    (if b.turn = .Black then [position_base.down 1] else [position_base.up 1])

/-- `Board::is_checked` — is `player`'s King attacked (missing King
counts as checked). -/
def is_checked (b : Board) (player : Player) : Bool :=
  match b.king_position player with
  | none => true
  | some position_base =>
    let cannonHit := (b.generate_move_for_chess_type .Cannon position_base).any fun pos =>
      (b.chess_at pos).belong_to player.next && (b.chess_at pos).chess_type == some .Cannon
    let rookHit := (b.generate_move_for_chess_type .Rook position_base).any fun pos =>
      (b.chess_at pos).belong_to player.next && (b.chess_at pos).chess_type == some .Rook
    let knightTargets :=
      (if b.chess_at (position_base.up 1) = Chess.None then
        [(position_base.up 2).left 1, (position_base.up 2).right 1] else []) ++
      (if b.chess_at (position_base.down 1) = Chess.None then
        [(position_base.down 2).left 1, (position_base.down 2).right 1] else []) ++
      (if b.chess_at (position_base.left 1) = Chess.None then
        [(position_base.left 2).up 1, (position_base.left 2).down 1] else []) ++
      (if b.chess_at (position_base.right 1) = Chess.None then
        [(position_base.right 2).up 1, (position_base.right 2).down 1] else [])
    let knightHit := knightTargets.any fun pos =>
      (b.chess_at pos).belong_to player.next && (b.chess_at pos).chess_type == some .Knight
    let pawnHit := [position_base.left 1, position_base.right 1,
        if player = .Red then position_base.up 1 else position_base.down 1].any fun pos =>
      (b.chess_at pos).belong_to player.next && (b.chess_at pos).chess_type == some .Pawn
    cannonHit || rookHit || knightHit || pawnHit || b.king_eye_to_eye

end Board

end XQ

namespace XQ

/-- `Board::get_chess_value` — the piece-square-table value of a piece
kind at a position, from its owner's perspective (Black reads the table
through `flip`).  A pure function of the tables, factored out of the
`Board` impl. -/
def get_chess_value (pos : Position) (chess_type : ChessType) (player : Player) : Int :=
  let pos := if player = .Black then pos.flip else pos
  match chess_type with
  | .King => tableAt KING_VALUE_TABLE pos
  | .Advisor => tableAt ADVISOR_VALUE_TABLE pos
  | .Bishop => tableAt BISHOP_VALUE_TABLE pos
  | .Knight => tableAt KNIGHT_VALUE_TABLE pos
  | .Rook => tableAt ROOK_VALUE_TABLE pos
  | .Cannon => tableAt CANNON_VALUE_TABLE pos
  | .Pawn => tableAt PAWN_VALUE_TABLE pos

namespace Board

/-- `Board::update_value` — incremental update of `vl_red` / `vl_black`
by the material + PST value of `chess` at `pos`, booked on `player`'s sum. -/
def update_value (b : Board) (player : Player) (pos : Position) (chess : Chess)
    (is_add : Bool) : Board :=
  match chess.chess_type with
  | some ct =>
    let val := get_chess_value pos ct player + ct.material_value
    if player = .Red then
      { b with vl_red := if is_add then b.vl_red + val else b.vl_red - val }
    else
      { b with vl_black := if is_add then b.vl_black + val else b.vl_black - val }
  | none => b

end Board

/-- The contribution of one square to `player`'s material + PST sum —
the value `Board::update_value` books for the piece when its owner is
`player`, and `0` otherwise. -/
def cell_value (c : Chess) (pos : Position) (player : Player) : Int :=
  match c.chess_type with
  | some ct =>
    if c.belong_to player then get_chess_value pos ct player + ct.material_value else 0
  | none => 0

/-- The from-scratch full-board material + PST sum for one side: the
value the `Board::update_initial_values` loop accumulates (it adds
`update_value` contributions cell by cell starting from zero, so the
result is this sum). -/
def computeVl (g : Grid) (player : Player) : Int :=
  ∑ i ∈ Finset.range 10, ∑ j ∈ Finset.range 9,
    cell_value (g (i : Int) (j : Int)) ⟨(i : Int), (j : Int)⟩ player

/-- The contribution of one square to `Board::get_player_score`'s
PST-only sum (no material term in the source). -/
def pst_cell (c : Chess) (pos : Position) (player : Player) : Int :=
  if c.belong_to player then
    match c.chess_type with
    | some ct => get_chess_value pos ct player
    | none => 0
  else 0

namespace Board

/-- `Board::update_initial_values` — recompute both sums from scratch. -/
def update_initial_values (b : Board) : Board :=
  { b with vl_red := computeVl b.chesses .Red, vl_black := computeVl b.chesses .Black }

/-- `Board::get_player_score` — the full-board PST-only sum for one
side (note: no `material_value` term in the source). -/
def get_player_score (b : Board) (player : Player) : Int :=
  ∑ i ∈ Finset.range 10, ∑ j ∈ Finset.range 9,
    pst_cell (b.chess_at ⟨(i : Int), (j : Int)⟩) ⟨(i : Int), (j : Int)⟩ player

/-- `Board::evaluate` — incremental sums difference plus the
side-to-move initiative bonus. -/
def evaluate (b : Board) (player : Player) : Int :=
  if player = .Red then b.vl_red - b.vl_black + INITIATIVE_BONUS
  else b.vl_black - b.vl_red + INITIATIVE_BONUS

/-- The captured-piece branch shared by `Board::apply_move`
(`is_add = false`) and `Board::undo_move` (`is_add = true`):
`if m.capture != Chess::None { if let Some(capture_player) = m.capture.player() { ... } }`. -/
def capture_update (b : Board) (m : Move) (is_add : Bool) : Board :=
  if m.capture ≠ Chess.None then
    match m.capture.player with
    | some capture_player => b.update_value capture_player m.to_pos m.capture is_add
    | none => b
  else b

/-- `Board::apply_move` — grid, hashes, incremental sums, turn, and the
(board-local) zobrist/check history pushes.  `distance` and
`move_history` are untouched (that is `do_move`). -/
def apply_move (zt ztl : Zobristable) (b : Board) (m : Move) : Board :=
  let b := { b with zobrist_history := b.zobrist_history ++ [b.zobrist_value] }
  let chess := b.chess_at m.from_pos
  let b := b.update_value m.player m.from_pos chess false
  let b := b.set_chess m.from_pos Chess.None
  let b := b.capture_update m false
  let b := b.update_value m.player m.to_pos chess true
  let b := b.set_chess m.to_pos chess
  let b := { b with
    zobrist_value := zt.apply_move b.zobrist_value m,
    zobrist_value_lock := ztl.apply_move b.zobrist_value_lock m,
    turn := m.player.next }
  { b with check_history := b.check_history ++ [b.is_checked b.turn] }

/-- `Board::undo_move` — exact inverse bookkeeping; also pops the
board-local histories, `distance`, and `move_history`. -/
def undo_move (zt ztl : Zobristable) (b : Board) (m : Move) : Board :=
  let chess := b.chess_at m.to_pos
  let b := b.update_value m.player m.to_pos chess false
  let b := b.capture_update m true
  let b := b.update_value m.player m.from_pos chess true
  let b := b.set_chess m.from_pos chess
  let b := b.set_chess m.to_pos m.capture
  let b := { b with
    zobrist_value := zt.undo_move b.zobrist_value m,
    zobrist_value_lock := ztl.undo_move b.zobrist_value_lock m,
    turn := m.player }
  { b with
    zobrist_history := b.zobrist_history.dropLast,
    check_history := b.check_history.dropLast,
    distance := b.distance - 1,
    move_history := b.move_history.dropLast }

/-- `Board::do_null_move` — swap the side to move only. -/
def do_null_move (b : Board) : Board :=
  { b with turn := b.turn.next, distance := b.distance + 1 }

/-- `Board::undo_null_move`. -/
def undo_null_move (b : Board) : Board :=
  { b with turn := b.turn.next, distance := b.distance - 1 }

end Board

end XQ

namespace XQ

namespace Board

/-- `Board::is_move_valid_for_chess_type` — per-piece geometry, path and
zone rules for the side to move. -/
def is_move_valid_for_chess_type (b : Board) (ct : ChessType)
    (from_pos to_pos : Position) : Bool :=
  if !in_board to_pos then false
  else
    match ct with
    | .King =>
      ((from_pos.row - to_pos.row).natAbs + (from_pos.col - to_pos.col).natAbs == 1)
        && in_palace to_pos b.turn
    | .Advisor =>
      ((from_pos.row - to_pos.row).natAbs == 1) && ((from_pos.col - to_pos.col).natAbs == 1)
        && in_palace to_pos b.turn
    | .Bishop =>
      ((from_pos.row - to_pos.row).natAbs == 2) && ((from_pos.col - to_pos.col).natAbs == 2)
        && in_country to_pos.row b.turn
        && (b.chess_at ⟨(from_pos.row + to_pos.row) / 2, (from_pos.col + to_pos.col) / 2⟩
              == Chess.None)
    | .Knight =>
      let row_diff := (from_pos.row - to_pos.row).natAbs
      let col_diff := (from_pos.col - to_pos.col).natAbs
      if !((row_diff == 1 && col_diff == 2) || (row_diff == 2 && col_diff == 1)) then false
      else if row_diff == 2 then
        b.chess_at ⟨(from_pos.row + to_pos.row) / 2, from_pos.col⟩ == Chess.None
      else
        b.chess_at ⟨from_pos.row, (from_pos.col + to_pos.col) / 2⟩ == Chess.None
    | .Rook =>
      (from_pos.row == to_pos.row || from_pos.col == to_pos.col)
        && !b.has_chess_between from_pos to_pos
    | .Cannon =>
      if from_pos.row == to_pos.row || from_pos.col == to_pos.col then
        if b.chess_at to_pos == Chess.None then !b.has_chess_between from_pos to_pos
        else b.count_chess_between from_pos to_pos == 1
      else false
    | .Pawn =>
      let forward_ok :=
        if b.turn = .Red then
          to_pos.row == from_pos.row - 1 && to_pos.col == from_pos.col
        else
          to_pos.row == from_pos.row + 1 && to_pos.col == from_pos.col
      if in_country from_pos.row b.turn then forward_ok
      else
        forward_ok ||
          (from_pos.row == to_pos.row && ((from_pos.col - to_pos.col).natAbs == 1))

/-- `Board::is_move_legal` — ownership, geometry, and the
"not in check after the move" test (the Rust code applies the move to a
clone with the capture field completed from the grid). -/
def is_move_legal (zt ztl : Zobristable) (b : Board) (m : Move) : Bool :=
  let chess := b.chess_at m.from_pos
  chess.belong_to b.turn &&
  !(b.chess_at m.to_pos).belong_to b.turn &&
  (match chess.chess_type with
   | some ct => b.is_move_valid_for_chess_type ct m.from_pos m.to_pos
   | none => false) &&
  !((apply_move zt ztl b { m with capture := b.chess_at m.to_pos }).is_checked b.turn)

/-- `Board::is_valid_move` — the pseudo-legality check used for
transposition-table and book moves (does not test for self-check). -/
def is_valid_move (b : Board) (mv : Move) : Bool :=
  let from_pos := mv.from_pos
  let to_pos := mv.to_pos
  if !in_board from_pos || !in_board to_pos || from_pos == to_pos then false
  else
    let from_chess := b.chess_at from_pos
    if !from_chess.belong_to b.turn then false
    else
      let to_chess := b.chess_at to_pos
      if to_chess.belong_to b.turn then false
      else
        let row_diff := (to_pos.row - from_pos.row).natAbs
        let col_diff := (to_pos.col - from_pos.col).natAbs
        match from_chess.chess_type with
        | some ct =>
          match ct with
          | .King => in_palace to_pos b.turn && (row_diff + col_diff == 1)
          | .Advisor => in_palace to_pos b.turn && (row_diff == 1 && col_diff == 1)
          | .Bishop =>
            in_country to_pos.row b.turn && row_diff == 2 && col_diff == 2
              && (b.chess_at ⟨(from_pos.row + to_pos.row) / 2, (from_pos.col + to_pos.col) / 2⟩
                    == Chess.None)
          | .Knight =>
            if row_diff == 1 && col_diff == 2 then
              b.chess_at ⟨from_pos.row, (from_pos.col + to_pos.col) / 2⟩ == Chess.None
            else if row_diff == 2 && col_diff == 1 then
              b.chess_at ⟨(from_pos.row + to_pos.row) / 2, from_pos.col⟩ == Chess.None
            else false
          | .Rook =>
            if row_diff == 0 || col_diff == 0 then b.count_chess from_pos to_pos == 0
            else false
          | .Cannon =>
            if row_diff == 0 || col_diff == 0 then
              let count := b.count_chess from_pos to_pos
              if to_chess == Chess.None then count == 0 else count == 1
            else false
          | .Pawn =>
            let forward : Int := if b.turn = .Red then -1 else 1
            if to_pos.row == from_pos.row + forward && col_diff == 0 then true
            else if !(in_country from_pos.row b.turn) && row_diff == 0 && col_diff == 1 then true
            else false
        | none => false

/-- `Board::generate_move` — all pseudo-legal moves of the side to move
(row-major over the grid, target order from
`generate_move_for_chess_type`); `capture_only` keeps only targets that
hold an enemy piece. -/
def generate_move (b : Board) (capture_only : Bool) : List Move :=
  (List.range 10).flatMap fun i =>
    (List.range 9).flatMap fun j =>
      let position_base : Position := ⟨(i : Int), (j : Int)⟩
      let chess := b.chess_at position_base
      if chess.belong_to b.turn then
        match chess.chess_type with
        | some ct =>
          let targets := b.generate_move_for_chess_type ct position_base
          targets.filterMap fun target =>
            let valid :=
              if ct == ChessType.King || ct == ChessType.Advisor then
                in_palace target b.turn
              else if ct == ChessType.Bishop then
                in_country target.row b.turn && in_board target
              else in_board target
            if valid && !(b.chess_at target).belong_to b.turn
                && (!capture_only || (b.chess_at target).chess_type.isSome) then
              some { player := b.turn, from_pos := position_base, to_pos := target,
                     chess := chess, capture := b.chess_at target }
            else none
        | none => []
      else []

end Board

/-- `SearchState::null_move_okay` (also `Board::null_move_okay`): the
side to move's PST-only score must exceed 200. -/
def null_move_okay (b : Board) : Bool :=
  b.get_player_score b.turn > 200

/-- The initial layout of `Board::init`, row-major from Black's back
rank. -/
def initRows : List (List Chess) := [
  [.Black .Rook, .Black .Knight, .Black .Bishop, .Black .Advisor, .Black .King,
   .Black .Advisor, .Black .Bishop, .Black .Knight, .Black .Rook],
  [.None, .None, .None, .None, .None, .None, .None, .None, .None],
  [.None, .Black .Cannon, .None, .None, .None, .None, .None, .Black .Cannon, .None],
  [.Black .Pawn, .None, .Black .Pawn, .None, .Black .Pawn, .None, .Black .Pawn, .None,
   .Black .Pawn],
  [.None, .None, .None, .None, .None, .None, .None, .None, .None],
  [.None, .None, .None, .None, .None, .None, .None, .None, .None],
  [.Red .Pawn, .None, .Red .Pawn, .None, .Red .Pawn, .None, .Red .Pawn, .None, .Red .Pawn],
  [.None, .Red .Cannon, .None, .None, .None, .None, .None, .Red .Cannon, .None],
  [.None, .None, .None, .None, .None, .None, .None, .None, .None],
  [.Red .Rook, .Red .Knight, .Red .Bishop, .Red .Advisor, .Red .King, .Red .Advisor,
   .Red .Bishop, .Red .Knight, .Red .Rook]]

/-- A grid as a function over the row lists. -/
def gridOfRows (rows : List (List Chess)) : Grid := fun r c =>
  (rows.getD r.toNat []).getD c.toNat Chess.None

namespace Board

/-- `Board::init` — the standard opening position, Red to move, with
the sums and hashes computed from the grid. -/
def init (zt ztl : Zobristable) : Board :=
  let b : Board := {
    chesses := gridOfRows initRows,
    turn := .Red,
    move_history := [],
    zobrist_history := [],
    check_history := [],
    zobrist_value := 0,
    zobrist_value_lock := 0,
    distance := 0,
    vl_red := 0,
    vl_black := 0 }
  let b := b.update_initial_values
  { b with
    zobrist_value := zt.calc_chesses b.chesses b.turn,
    zobrist_value_lock := ztl.calc_chesses b.chesses b.turn }

end Board

end XQ

namespace XQ

/-- The value `Board::update_value` books for `chess` at `pos` on
`player`'s sum (0 for an empty square). -/
def upd_delta (c : Chess) (pos : Position) (player : Player) : Int :=
  match c.chess_type with
  | some ct => get_chess_value pos ct player + ct.material_value
  | none => 0

namespace Board

theorem update_value_chesses (b : Board) (p : Player) (pos : Position) (c : Chess)
    (ia : Bool) : (b.update_value p pos c ia).chesses = b.chesses := by
  unfold update_value
  rcases c.chess_type with _ | ct <;> dsimp <;> split <;> rfl

theorem update_value_turn (b : Board) (p : Player) (pos : Position) (c : Chess)
    (ia : Bool) : (b.update_value p pos c ia).turn = b.turn := by
  unfold update_value
  rcases c.chess_type with _ | ct <;> dsimp <;> split <;> rfl

theorem update_value_zob (b : Board) (p : Player) (pos : Position) (c : Chess)
    (ia : Bool) : (b.update_value p pos c ia).zobrist_value = b.zobrist_value := by
  unfold update_value
  rcases c.chess_type with _ | ct <;> dsimp <;> split <;> rfl

theorem update_value_lock (b : Board) (p : Player) (pos : Position) (c : Chess)
    (ia : Bool) : (b.update_value p pos c ia).zobrist_value_lock = b.zobrist_value_lock := by
  unfold update_value
  rcases c.chess_type with _ | ct <;> dsimp <;> split <;> rfl

theorem update_value_hist (b : Board) (p : Player) (pos : Position) (c : Chess)
    (ia : Bool) :
    (b.update_value p pos c ia).zobrist_history = b.zobrist_history ∧
    (b.update_value p pos c ia).check_history = b.check_history ∧
    (b.update_value p pos c ia).move_history = b.move_history ∧
    (b.update_value p pos c ia).distance = b.distance := by
  unfold update_value
  rcases c.chess_type with _ | ct
  · exact ⟨rfl, rfl, rfl, rfl⟩
  · dsimp
    split <;> exact ⟨rfl, rfl, rfl, rfl⟩

theorem update_value_vl_red (b : Board) (p : Player) (pos : Position) (c : Chess)
    (ia : Bool) :
    (b.update_value p pos c ia).vl_red
      = b.vl_red + (if p = .Red then
          (if ia then upd_delta c pos p else -upd_delta c pos p) else 0) := by
  unfold update_value upd_delta
  rcases c.chess_type with _ | ct <;> dsimp
  · split <;> simp
  · rcases p with _ | _ <;> rcases ia with _ | _ <;> simp <;> ring

theorem update_value_vl_black (b : Board) (p : Player) (pos : Position) (c : Chess)
    (ia : Bool) :
    (b.update_value p pos c ia).vl_black
      = b.vl_black + (if p = .Red then 0 else
          (if ia then upd_delta c pos p else -upd_delta c pos p)) := by
  unfold update_value upd_delta
  rcases c.chess_type with _ | ct <;> dsimp
  · split <;> simp
  · rcases p with _ | _ <;> rcases ia with _ | _ <;> simp <;> ring

theorem chess_at_update_value (b : Board) (p : Player) (pos : Position) (c : Chess)
    (ia : Bool) (q : Position) :
    (b.update_value p pos c ia).chess_at q = b.chess_at q := by
  unfold chess_at
  rw [update_value_chesses]

theorem chess_at_set_chess (b : Board) (pos : Position) (c : Chess) (q : Position) :
    (b.set_chess pos c).chess_at q
      = if in_board q then
          (if q.row = pos.row ∧ q.col = pos.col then c else b.chesses q.row q.col)
        else Chess.None := by
  unfold chess_at set_chess
  rfl

end Board

theorem xor_left_comm (a b c : Nat) : a ^^^ (b ^^^ c) = b ^^^ (a ^^^ c) := by
  rw [← Nat.xor_assoc, Nat.xor_comm a b, Nat.xor_assoc]

theorem xor_self_cancel (a b : Nat) : a ^^^ (a ^^^ b) = b := by
  rw [← Nat.xor_assoc, Nat.xor_self, Nat.zero_xor]

theorem Zobristable.undo_apply (t : Zobristable) (h : Nat) (m : Move) :
    t.undo_move (t.apply_move h m) m = h := by
  unfold Zobristable.undo_move Zobristable.apply_move
  generalize t.key m.chess m.from_pos = a
  generalize t.key m.chess m.to_pos = b
  generalize (if m.capture ≠ Chess.None then t.key m.capture m.to_pos else 0) = c
  generalize t.turnKey = d
  simp only [Nat.xor_assoc]
  simp [xor_left_comm, xor_self_cancel, Nat.xor_comm, Nat.xor_self, Nat.xor_zero, Nat.zero_xor]

end XQ

namespace XQ

theorem cell_value_eq (c : Chess) (pos : Position) (p : Player) :
    cell_value c pos p = if c.belong_to p then upd_delta c pos p else 0 := by
  unfold cell_value upd_delta Chess.belong_to
  rcases c with ct | ct | _ <;> rcases p with _ | _ <;> simp [Chess.chess_type, Chess.player]

namespace Board

theorem capture_update_chesses (b : Board) (m : Move) (ia : Bool) :
    (b.capture_update m ia).chesses = b.chesses := by
  unfold capture_update
  split
  · rcases m.capture.player with _ | cp
    · rfl
    · exact update_value_chesses ..
  · rfl

theorem capture_update_turn (b : Board) (m : Move) (ia : Bool) :
    (b.capture_update m ia).turn = b.turn := by
  unfold capture_update
  split
  · rcases m.capture.player with _ | cp
    · rfl
    · exact update_value_turn ..
  · rfl

theorem capture_update_zob (b : Board) (m : Move) (ia : Bool) :
    (b.capture_update m ia).zobrist_value = b.zobrist_value ∧
    (b.capture_update m ia).zobrist_value_lock = b.zobrist_value_lock := by
  unfold capture_update
  split
  · rcases m.capture.player with _ | cp
    · exact ⟨rfl, rfl⟩
    · exact ⟨update_value_zob .., update_value_lock ..⟩
  · exact ⟨rfl, rfl⟩

theorem capture_update_hist (b : Board) (m : Move) (ia : Bool) :
    (b.capture_update m ia).zobrist_history = b.zobrist_history ∧
    (b.capture_update m ia).check_history = b.check_history ∧
    (b.capture_update m ia).move_history = b.move_history ∧
    (b.capture_update m ia).distance = b.distance := by
  unfold capture_update
  split
  · rcases m.capture.player with _ | cp
    · exact ⟨rfl, rfl, rfl, rfl⟩
    · exact update_value_hist ..
  · exact ⟨rfl, rfl, rfl, rfl⟩

theorem capture_update_vl_red (b : Board) (m : Move) (ia : Bool) :
    (b.capture_update m ia).vl_red
      = b.vl_red + (if m.capture.belong_to .Red then
          (if ia then upd_delta m.capture m.to_pos .Red else -upd_delta m.capture m.to_pos .Red)
          else 0) := by
  unfold capture_update
  rcases hc : m.capture with ct | ct | _ <;>
    simp [hc, update_value_vl_red, Chess.belong_to, Chess.player]

theorem capture_update_vl_black (b : Board) (m : Move) (ia : Bool) :
    (b.capture_update m ia).vl_black
      = b.vl_black + (if m.capture.belong_to .Black then
          (if ia then upd_delta m.capture m.to_pos .Black
           else -upd_delta m.capture m.to_pos .Black)
          else 0) := by
  unfold capture_update
  rcases hc : m.capture with ct | ct | _ <;>
    simp [hc, update_value_vl_black, Chess.belong_to, Chess.player]

end Board

end XQ

namespace XQ

namespace Board

theorem apply_move_chesses (zt ztl : Zobristable) (b : Board) (m : Move) :
    (b.apply_move zt ztl m).chesses = fun r c =>
      if r = m.to_pos.row ∧ c = m.to_pos.col then b.chess_at m.from_pos
      else if r = m.from_pos.row ∧ c = m.from_pos.col then Chess.None
      else b.chesses r c := by
  funext r c
  simp only [apply_move, set_chess, capture_update_chesses, update_value_chesses, chess_at]

end Board

end XQ

namespace XQ

namespace Board

theorem apply_move_scalars (zt ztl : Zobristable) (b : Board) (m : Move) :
    (b.apply_move zt ztl m).turn = m.player.next ∧
    (b.apply_move zt ztl m).zobrist_value = zt.apply_move b.zobrist_value m ∧
    (b.apply_move zt ztl m).zobrist_value_lock = ztl.apply_move b.zobrist_value_lock m ∧
    (b.apply_move zt ztl m).distance = b.distance ∧
    (b.apply_move zt ztl m).move_history = b.move_history ∧
    (b.apply_move zt ztl m).zobrist_history = b.zobrist_history ++ [b.zobrist_value] := by
  refine ⟨rfl, ?_, ?_, ?_, ?_, ?_⟩ <;>
    simp only [apply_move, set_chess, update_value_zob, update_value_lock,
      (capture_update_zob ..).1, (capture_update_zob ..).2,
      (update_value_hist ..).1, (update_value_hist ..).2.1, (update_value_hist ..).2.2.1,
      (update_value_hist ..).2.2.2,
      (capture_update_hist ..).1, (capture_update_hist ..).2.1,
      (capture_update_hist ..).2.2.1, (capture_update_hist ..).2.2.2]

theorem apply_move_vl_red (zt ztl : Zobristable) (b : Board) (m : Move) :
    (b.apply_move zt ztl m).vl_red = b.vl_red
      + (if m.player = .Red then -upd_delta (b.chess_at m.from_pos) m.from_pos m.player else 0)
      + (if m.capture.belong_to .Red then -upd_delta m.capture m.to_pos .Red else 0)
      + (if m.player = .Red then upd_delta (b.chess_at m.from_pos) m.to_pos m.player else 0) := by
  simp only [apply_move, set_chess, update_value_vl_red, capture_update_vl_red, chess_at,
    if_true, if_false, Bool.false_eq_true]
  all_goals try split_ifs
  all_goals try ring

end Board

end XQ


namespace XQ

namespace Board

theorem apply_move_vl_black (zt ztl : Zobristable) (b : Board) (m : Move) :
    (b.apply_move zt ztl m).vl_black = b.vl_black
      + (if m.player = .Red then 0 else -upd_delta (b.chess_at m.from_pos) m.from_pos m.player)
      + (if m.capture.belong_to .Black then -upd_delta m.capture m.to_pos .Black else 0)
      + (if m.player = .Red then 0 else upd_delta (b.chess_at m.from_pos) m.to_pos m.player) := by
  simp only [apply_move, set_chess, update_value_vl_black, capture_update_vl_black, chess_at,
    if_true, if_false, Bool.false_eq_true]
  all_goals try split_ifs
  all_goals try ring

theorem undo_move_chesses (zt ztl : Zobristable) (b : Board) (m : Move) :
    (b.undo_move zt ztl m).chesses = fun r c =>
      if r = m.to_pos.row ∧ c = m.to_pos.col then m.capture
      else if r = m.from_pos.row ∧ c = m.from_pos.col then b.chess_at m.to_pos
      else b.chesses r c := by
  funext r c
  simp only [undo_move, set_chess, capture_update_chesses, update_value_chesses, chess_at]

theorem undo_move_scalars (zt ztl : Zobristable) (b : Board) (m : Move) :
    (b.undo_move zt ztl m).turn = m.player ∧
    (b.undo_move zt ztl m).zobrist_value = zt.undo_move b.zobrist_value m ∧
    (b.undo_move zt ztl m).zobrist_value_lock = ztl.undo_move b.zobrist_value_lock m ∧
    (b.undo_move zt ztl m).distance = b.distance - 1 ∧
    (b.undo_move zt ztl m).move_history = b.move_history.dropLast ∧
    (b.undo_move zt ztl m).zobrist_history = b.zobrist_history.dropLast := by
  refine ⟨rfl, ?_, ?_, ?_, ?_, ?_⟩ <;>
    simp only [undo_move, set_chess, update_value_zob, update_value_lock,
      (capture_update_zob ..).1, (capture_update_zob ..).2,
      (update_value_hist ..).1, (update_value_hist ..).2.1, (update_value_hist ..).2.2.1,
      (update_value_hist ..).2.2.2,
      (capture_update_hist ..).1, (capture_update_hist ..).2.1,
      (capture_update_hist ..).2.2.1, (capture_update_hist ..).2.2.2]

theorem undo_move_vl_red (zt ztl : Zobristable) (b : Board) (m : Move) :
    (b.undo_move zt ztl m).vl_red = b.vl_red
      + (if m.player = .Red then -upd_delta (b.chess_at m.to_pos) m.to_pos m.player else 0)
      + (if m.capture.belong_to .Red then upd_delta m.capture m.to_pos .Red else 0)
      + (if m.player = .Red then upd_delta (b.chess_at m.to_pos) m.from_pos m.player else 0) := by
  simp only [undo_move, set_chess, update_value_vl_red, capture_update_vl_red, chess_at,
    if_true, if_false, Bool.false_eq_true]
  all_goals try split_ifs
  all_goals try ring

theorem undo_move_vl_black (zt ztl : Zobristable) (b : Board) (m : Move) :
    (b.undo_move zt ztl m).vl_black = b.vl_black
      + (if m.player = .Red then 0 else -upd_delta (b.chess_at m.to_pos) m.to_pos m.player)
      + (if m.capture.belong_to .Black then upd_delta m.capture m.to_pos .Black else 0)
      + (if m.player = .Red then 0 else upd_delta (b.chess_at m.to_pos) m.from_pos m.player) := by
  simp only [undo_move, set_chess, update_value_vl_black, capture_update_vl_black, chess_at,
    if_true, if_false, Bool.false_eq_true]
  all_goals try split_ifs
  all_goals try ring

end Board

end XQ

namespace XQ

namespace Board

theorem is_move_legal_facts (zt ztl : Zobristable) (b : Board) (m : Move)
    (h : b.is_move_legal zt ztl m = true) :
    (b.chess_at m.from_pos).belong_to b.turn = true ∧
    in_board m.from_pos = true ∧ in_board m.to_pos = true ∧ m.from_pos ≠ m.to_pos := by
  unfold is_move_legal at h
  simp only [Bool.and_eq_true] at h
  obtain ⟨⟨⟨hA, hB⟩, hC⟩, _⟩ := h
  have hinf : in_board m.from_pos = true := by
    by_contra hnb
    rw [Bool.not_eq_true] at hnb
    rw [chess_at, hnb] at hA
    simp [Chess.belong_to, Chess.player] at hA
  have hint : in_board m.to_pos = true := by
    rcases hc : b.chess_at m.from_pos with ct | ct | _
    · rw [hc] at hC
      by_contra hnb
      rw [Bool.not_eq_true] at hnb
      simp [Chess.chess_type, is_move_valid_for_chess_type, hnb] at hC
    · rw [hc] at hC
      by_contra hnb
      rw [Bool.not_eq_true] at hnb
      simp [Chess.chess_type, is_move_valid_for_chess_type, hnb] at hC
    · rw [hc] at hA
      simp [Chess.belong_to, Chess.player] at hA
  refine ⟨hA, hinf, hint, ?_⟩
  intro heq
  rw [heq] at hA
  rw [Bool.not_eq_true'] at hB
  rw [hA] at hB
  exact absurd hB (by simp)

end Board

end XQ

namespace XQ

theorem chess_at_apply_to (zt ztl : Zobristable) (b : Board) (m : Move)
    (hint : in_board m.to_pos = true) :
    (b.apply_move zt ztl m).chess_at m.to_pos = b.chess_at m.from_pos := by
  rw [Board.chess_at, Board.apply_move_chesses, hint]
  simp

/-- C1. -/
theorem apply_then_undo_restores (zt ztl : Zobristable) (b : Board) (m : Move)
    (hleg : b.is_move_legal zt ztl m = true)
    (hpl : m.player = b.turn)
    (hcap : m.capture = b.chess_at m.to_pos) :
    ((b.apply_move zt ztl m).undo_move zt ztl m).chesses = b.chesses ∧
    ((b.apply_move zt ztl m).undo_move zt ztl m).turn = b.turn ∧
    ((b.apply_move zt ztl m).undo_move zt ztl m).zobrist_value = b.zobrist_value ∧
    ((b.apply_move zt ztl m).undo_move zt ztl m).zobrist_value_lock = b.zobrist_value_lock ∧
    ((b.apply_move zt ztl m).undo_move zt ztl m).vl_red = b.vl_red ∧
    ((b.apply_move zt ztl m).undo_move zt ztl m).vl_black = b.vl_black := by
  obtain ⟨hbf, hinf, hint, hne⟩ := Board.is_move_legal_facts zt ztl b m hleg
  have hat : (b.apply_move zt ztl m).chess_at m.to_pos = b.chess_at m.from_pos :=
    chess_at_apply_to zt ztl b m hint
  refine ⟨?_, ?_, ?_, ?_, ?_, ?_⟩
  · funext r c
    rw [Board.undo_move_chesses, Board.apply_move_chesses, hat]
    dsimp only
    by_cases hto : r = m.to_pos.row ∧ c = m.to_pos.col
    · obtain ⟨h1, h2⟩ := hto
      subst h1; subst h2
      rw [if_pos ⟨rfl, rfl⟩, hcap, Board.chess_at, hint]
      simp
    · by_cases hfrom : r = m.from_pos.row ∧ c = m.from_pos.col
      · obtain ⟨h1, h2⟩ := hfrom
        subst h1; subst h2
        rw [if_neg hto, if_pos ⟨rfl, rfl⟩, Board.chess_at, hinf]
        simp
      · rw [if_neg hto, if_neg hfrom, if_neg hto, if_neg hfrom]
  · rw [(Board.undo_move_scalars ..).1, hpl]
  · rw [(Board.undo_move_scalars ..).2.1, (Board.apply_move_scalars ..).2.1,
      Zobristable.undo_apply]
  · rw [(Board.undo_move_scalars ..).2.2.1, (Board.apply_move_scalars ..).2.2.1,
      Zobristable.undo_apply]
  · rw [Board.undo_move_vl_red, hat, Board.apply_move_vl_red]
    split_ifs <;> ring
  · rw [Board.undo_move_vl_black, hat, Board.apply_move_vl_black]
    split_ifs <;> ring

end XQ

namespace XQ

/-- A concrete key table for witnesses (the theorems hold for every
table, so the all-zero table suffices). -/
def zTriv : Zobristable := ⟨fun _ _ => 0, 0⟩

/-- A concrete legal opening move: the Red rook from (9,8) to (7,8). -/
def mRookMove : Move :=
  { player := Player.Red, from_pos := Position.mk 9 8, to_pos := Position.mk 7 8,
    chess := Chess.Red ChessType.Rook, capture := Chess.None }

/-- Witness for C1 at the initial position and the rook move. -/
theorem apply_then_undo_restores_witness :
    ((Board.init zTriv zTriv).is_move_legal zTriv zTriv mRookMove = true ∧
      mRookMove.player = (Board.init zTriv zTriv).turn ∧
      mRookMove.capture = (Board.init zTriv zTriv).chess_at mRookMove.to_pos) ∧
    (((Board.init zTriv zTriv).apply_move zTriv zTriv mRookMove).undo_move zTriv zTriv
        mRookMove).vl_red = (Board.init zTriv zTriv).vl_red :=
  ⟨⟨by decide, by decide, by decide⟩,
    (apply_then_undo_restores zTriv zTriv (Board.init zTriv zTriv) mRookMove
      (by decide) (by decide) (by decide)).2.2.2.2.1⟩

/-- C9: `do_null_move` flips the side to move; the grid, both hashes
and both incremental sums are unchanged, and `undo_null_move` after it
restores the turn with the grid unchanged throughout. -/
theorem null_move_frame (b : Board) :
    b.do_null_move.turn = b.turn.next ∧
    b.do_null_move.chesses = b.chesses ∧
    b.do_null_move.zobrist_value = b.zobrist_value ∧
    b.do_null_move.zobrist_value_lock = b.zobrist_value_lock ∧
    b.do_null_move.vl_red = b.vl_red ∧
    b.do_null_move.vl_black = b.vl_black ∧
    b.do_null_move.undo_null_move.turn = b.turn ∧
    b.do_null_move.undo_null_move.chesses = b.chesses := by
  refine ⟨rfl, rfl, rfl, rfl, rfl, rfl, ?_, rfl⟩
  show b.turn.next.next = b.turn
  cases b.turn <;> rfl

end XQ

namespace XQ

theorem sum_update_point (n : ℕ) (f g : ℕ → ℤ) (a : ℕ) (ha : a < n)
    (hsame : ∀ x, x ≠ a → g x = f x) :
    ∑ x ∈ Finset.range n, g x = (∑ x ∈ Finset.range n, f x) - f a + g a := by
  have hmem : a ∈ Finset.range n := Finset.mem_range.mpr ha
  rw [← Finset.sum_erase_add _ g hmem, ← Finset.sum_erase_add _ f hmem]
  have hcongr : ∑ x ∈ (Finset.range n).erase a, g x
      = ∑ x ∈ (Finset.range n).erase a, f x :=
    Finset.sum_congr rfl fun x hx => hsame x (Finset.ne_of_mem_erase hx)
  rw [hcongr]
  ring

theorem computeVl_set (g : Grid) (pos : Position) (c : Chess) (p : Player)
    (hin : in_board pos = true) :
    computeVl (fun r cc => if r = pos.row ∧ cc = pos.col then c else g r cc) p
      = computeVl g p - cell_value (g pos.row pos.col) pos p + cell_value c pos p := by
  simp only [in_board, BOARD_HEIGHT, BOARD_WIDTH, Bool.and_eq_true, decide_eq_true_eq] at hin
  obtain ⟨⟨⟨h1, h2⟩, h3⟩, h4⟩ := hin
  have hR : pos.row.toNat < 10 := by omega
  have hC : pos.col.toNat < 9 := by omega
  have hRi : (pos.row.toNat : Int) = pos.row := Int.toNat_of_nonneg h1
  have hCi : (pos.col.toNat : Int) = pos.col := Int.toNat_of_nonneg h3
  unfold computeVl
  rw [sum_update_point 10
    (fun i => ∑ j ∈ Finset.range 9, cell_value (g (i : Int) (j : Int)) ⟨(i : Int), (j : Int)⟩ p)
    (fun i => ∑ j ∈ Finset.range 9,
      cell_value (if (i : Int) = pos.row ∧ (j : Int) = pos.col then c else g (i : Int) (j : Int))
        ⟨(i : Int), (j : Int)⟩ p)
    pos.row.toNat hR ?_]
  · try dsimp only
    rw [sum_update_point 9
      (fun j => cell_value (g pos.row.toNat (j : Int)) ⟨pos.row.toNat, (j : Int)⟩ p)
      (fun j => cell_value
        (if (pos.row.toNat : Int) = pos.row ∧ (j : Int) = pos.col then c
         else g pos.row.toNat (j : Int)) ⟨(pos.row.toNat : Int), (j : Int)⟩ p)
      pos.col.toNat hC ?_]
    · try dsimp only
      rw [if_pos ⟨hRi, hCi⟩, hRi, hCi]
      ring
    · intro x hx
      try dsimp only
      rw [if_neg]
      rintro ⟨-, hxx⟩
      exact hx (by omega)
  · intro x hx
    try dsimp only
    apply Finset.sum_congr rfl
    intro j _
    rw [if_neg]
    rintro ⟨hxx, -⟩
    exact hx (by omega)

end XQ

namespace XQ

/-- The incremental-evaluation invariant: both side sums equal the
from-scratch full-board recomputation. -/
def vlInv (b : Board) : Prop :=
  b.vl_red = computeVl b.chesses .Red ∧ b.vl_black = computeVl b.chesses .Black

theorem pos_ne_coords (p q : Position) (h : p ≠ q) : ¬(q.row = p.row ∧ q.col = p.col) := by
  rintro ⟨h1, h2⟩
  apply h
  cases p; cases q
  simp only [Position.mk.injEq] at h1 h2 ⊢
  exact ⟨h1.symm, h2.symm⟩

theorem belong_to_red_of_black (c : Chess) (h : c.belong_to .Black = true) :
    c.belong_to .Red = false := by
  rcases c with ct | ct | _ <;> simp_all [Chess.belong_to, Chess.player]

theorem belong_to_black_of_red (c : Chess) (h : c.belong_to .Red = true) :
    c.belong_to .Black = false := by
  rcases c with ct | ct | _ <;> simp_all [Chess.belong_to, Chess.player]

theorem belong_to_none (p : Player) : Chess.None.belong_to p = false := rfl

theorem chess_at_eq_chesses (b : Board) (pos : Position) (h : in_board pos = true) :
    b.chess_at pos = b.chesses pos.row pos.col := by
  rw [Board.chess_at, h]
  simp

theorem apply_move_preserves_vlInv (zt ztl : Zobristable) (b : Board) (m : Move)
    (hinf : in_board m.from_pos = true) (hint : in_board m.to_pos = true)
    (hne : m.from_pos ≠ m.to_pos)
    (hbf : (b.chess_at m.from_pos).belong_to m.player = true)
    (hcap : m.capture = b.chess_at m.to_pos)
    (hinv : vlInv b) : vlInv (b.apply_move zt ztl m) := by
  obtain ⟨hr, hb⟩ := hinv
  have hgrid : (b.apply_move zt ztl m).chesses = (fun r c =>
      if r = m.to_pos.row ∧ c = m.to_pos.col then b.chess_at m.from_pos
      else (fun r2 c2 => if r2 = m.from_pos.row ∧ c2 = m.from_pos.col then Chess.None
            else b.chesses r2 c2) r c) :=
    Board.apply_move_chesses zt ztl b m
  have hcoords := pos_ne_coords m.from_pos m.to_pos hne
  have hsetvl : ∀ p : Player, computeVl (b.apply_move zt ztl m).chesses p
      = computeVl b.chesses p - cell_value (b.chesses m.from_pos.row m.from_pos.col) m.from_pos p
        + cell_value Chess.None m.from_pos p
        - cell_value (b.chesses m.to_pos.row m.to_pos.col) m.to_pos p
        + cell_value (b.chess_at m.from_pos) m.to_pos p := by
    intro p
    rw [hgrid, computeVl_set _ m.to_pos _ p hint, computeVl_set _ m.from_pos _ p hinf]
    try dsimp only
    rw [if_neg hcoords]
  have hbf2 : (b.chesses m.from_pos.row m.from_pos.col).belong_to m.player = true := by
    rw [← chess_at_eq_chesses b m.from_pos hinf]
    exact hbf
  constructor
  · rw [Board.apply_move_vl_red, hsetvl .Red, hr, hcap,
      chess_at_eq_chesses b m.from_pos hinf, chess_at_eq_chesses b m.to_pos hint]
    simp only [cell_value_eq]
    rcases hp : m.player with _ | _ <;> rw [hp] at hbf2
    · cases hcb : (b.chesses m.to_pos.row m.to_pos.col).belong_to Player.Red <;>
        simp [hbf2, hcb, belong_to_none] <;> try ring
    · cases hcb : (b.chesses m.to_pos.row m.to_pos.col).belong_to Player.Red <;>
        simp [belong_to_red_of_black _ hbf2, hcb, belong_to_none] <;> try ring
  · rw [Board.apply_move_vl_black, hsetvl .Black, hb, hcap,
      chess_at_eq_chesses b m.from_pos hinf, chess_at_eq_chesses b m.to_pos hint]
    simp only [cell_value_eq]
    rcases hp : m.player with _ | _ <;> rw [hp] at hbf2
    · cases hcb : (b.chesses m.to_pos.row m.to_pos.col).belong_to Player.Black <;>
        simp [belong_to_black_of_red _ hbf2, hcb, belong_to_none] <;> try ring
    · cases hcb : (b.chesses m.to_pos.row m.to_pos.col).belong_to Player.Black <;>
        simp [hbf2, hcb, belong_to_none] <;> try ring

end XQ

namespace XQ

theorem undo_move_preserves_vlInv (zt ztl : Zobristable) (b : Board) (m : Move)
    (hinf : in_board m.from_pos = true) (hint : in_board m.to_pos = true)
    (hne : m.from_pos ≠ m.to_pos)
    (hfe : b.chess_at m.from_pos = Chess.None)
    (hbt : (b.chess_at m.to_pos).belong_to m.player = true)
    (hinv : vlInv b) : vlInv (b.undo_move zt ztl m) := by
  obtain ⟨hr, hb⟩ := hinv
  have hgrid : (b.undo_move zt ztl m).chesses = (fun r c =>
      if r = m.to_pos.row ∧ c = m.to_pos.col then m.capture
      else (fun r2 c2 => if r2 = m.from_pos.row ∧ c2 = m.from_pos.col then b.chess_at m.to_pos
            else b.chesses r2 c2) r c) :=
    Board.undo_move_chesses zt ztl b m
  have hcoords := pos_ne_coords m.from_pos m.to_pos hne
  have hfe2 : b.chesses m.from_pos.row m.from_pos.col = Chess.None := by
    rw [← chess_at_eq_chesses b m.from_pos hinf]
    exact hfe
  have hsetvl : ∀ p : Player, computeVl (b.undo_move zt ztl m).chesses p
      = computeVl b.chesses p - cell_value Chess.None m.from_pos p
        + cell_value (b.chess_at m.to_pos) m.from_pos p
        - cell_value (b.chesses m.to_pos.row m.to_pos.col) m.to_pos p
        + cell_value m.capture m.to_pos p := by
    intro p
    rw [hgrid, computeVl_set _ m.to_pos _ p hint, computeVl_set _ m.from_pos _ p hinf]
    try dsimp only
    rw [if_neg hcoords, hfe2]
  have hbt2 : (b.chesses m.to_pos.row m.to_pos.col).belong_to m.player = true := by
    rw [← chess_at_eq_chesses b m.to_pos hint]
    exact hbt
  constructor
  · rw [Board.undo_move_vl_red, hsetvl .Red, hr, chess_at_eq_chesses b m.to_pos hint]
    simp only [cell_value_eq]
    rcases hp : m.player with _ | _ <;> rw [hp] at hbt2
    · cases hcb : m.capture.belong_to Player.Red <;>
        simp [hbt2, hcb, belong_to_none] <;> try ring
    · cases hcb : m.capture.belong_to Player.Red <;>
        simp [belong_to_red_of_black _ hbt2, hcb, belong_to_none] <;> try ring
  · rw [Board.undo_move_vl_black, hsetvl .Black, hb, chess_at_eq_chesses b m.to_pos hint]
    simp only [cell_value_eq]
    rcases hp : m.player with _ | _ <;> rw [hp] at hbt2
    · cases hcb : m.capture.belong_to Player.Black <;>
        simp [belong_to_black_of_red _ hbt2, hcb, belong_to_none] <;> try ring
    · cases hcb : m.capture.belong_to Player.Black <;>
        simp [hbt2, hcb, belong_to_none] <;> try ring

end XQ

namespace XQ

/-- A search-walk step: either apply a move or undo one. -/
inductive SearchOp where
  | app (m : Move)
  | und (m : Move)

/-- Run a sequence of `apply_move` / `undo_move` calls. -/
def runOps (zt ztl : Zobristable) (b : Board) : List SearchOp → Board
  | [] => b
  | .app m :: rest => runOps zt ztl (b.apply_move zt ztl m) rest
  | .und m :: rest => runOps zt ztl (b.undo_move zt ztl m) rest

/-- A legal `apply_move` call: the move passes `is_move_legal` and is
shaped the way the engine builds moves (mover is the side to move, the
capture field is the piece on the target square). -/
def LegalAppOk (zt ztl : Zobristable) (b : Board) (m : Move) : Bool :=
  b.is_move_legal zt ztl m && (m.player == b.turn) && (m.capture == b.chess_at m.to_pos)

/-- A well-formed `undo_move` call: the source square is empty, the
target square holds the mover's piece (the state `apply_move` leaves
behind). -/
def UndoOk (b : Board) (m : Move) : Bool :=
  in_board m.from_pos && in_board m.to_pos && !(m.from_pos == m.to_pos)
    && (b.chess_at m.from_pos == Chess.None) && (b.chess_at m.to_pos).belong_to m.player

/-- Every step of the walk is legal in the state where it runs. -/
def OpsOk (zt ztl : Zobristable) (b : Board) : List SearchOp → Bool
  | [] => true
  | .app m :: rest => LegalAppOk zt ztl b m && OpsOk zt ztl (b.apply_move zt ztl m) rest
  | .und m :: rest => UndoOk b m && OpsOk zt ztl (b.undo_move zt ztl m) rest

instance vlInv.decidable (b : Board) : Decidable (vlInv b) :=
  inferInstanceAs (Decidable (b.vl_red = computeVl b.chesses .Red ∧
    b.vl_black = computeVl b.chesses .Black))

/-- C2. -/
theorem vl_incremental_matches_full_recompute (zt ztl : Zobristable) (ops : List SearchOp) :
    ∀ b : Board, OpsOk zt ztl b ops = true → vlInv b → vlInv (runOps zt ztl b ops) := by
  induction ops with
  | nil => intro b _ hinv; exact hinv
  | cons op rest ih =>
    intro b hok hinv
    cases op with
    | app m =>
      simp only [OpsOk, Bool.and_eq_true] at hok
      obtain ⟨hstep, hrest⟩ := hok
      simp only [LegalAppOk, Bool.and_eq_true, beq_iff_eq] at hstep
      obtain ⟨⟨hml, hpl⟩, hcap⟩ := hstep
      obtain ⟨hbf, hinf, hint, hne⟩ := Board.is_move_legal_facts zt ztl b m hml
      rw [← hpl] at hbf
      exact ih _ hrest (apply_move_preserves_vlInv zt ztl b m hinf hint hne hbf hcap hinv)
    | und m =>
      simp only [OpsOk, Bool.and_eq_true] at hok
      obtain ⟨hstep, hrest⟩ := hok
      simp only [UndoOk, Bool.and_eq_true, beq_iff_eq, Bool.not_eq_true',
        beq_eq_false_iff_ne] at hstep
      obtain ⟨⟨⟨⟨hinf, hint⟩, hne⟩, hfe⟩, hbt⟩ := hstep
      exact ih _ hrest (undo_move_preserves_vlInv zt ztl b m hinf hint hne hfe hbt hinv)

/-- Witness for C2: the initial position, apply then undo the rook move. -/
theorem vl_incremental_matches_full_recompute_witness :
    (OpsOk zTriv zTriv (Board.init zTriv zTriv)
        [SearchOp.app mRookMove, SearchOp.und mRookMove] = true ∧
      vlInv (Board.init zTriv zTriv)) ∧
    vlInv (runOps zTriv zTriv (Board.init zTriv zTriv)
      [SearchOp.app mRookMove, SearchOp.und mRookMove]) :=
  ⟨⟨by decide, by decide⟩,
    vl_incremental_matches_full_recompute zTriv zTriv
      [SearchOp.app mRookMove, SearchOp.und mRookMove]
      (Board.init zTriv zTriv) (by decide) (by decide)⟩

end XQ

namespace XQ

/-- The transposition-table slot index, as computed by both
`find_record` and `add_record`:
`(zobrist_value & (RECORD_SIZE - 1) as u64) as usize`. -/
def record_index (zobrist_value : Nat) : Nat :=
  zobrist_value &&& (RECORD_SIZE - 1)

/-- No power of two equals `RECORD_SIZE` (2,097,150 = 2 mod 4, and is
not 1 or 2). -/
theorem record_size_not_pow (k : Nat) : 2 ^ k ≠ RECORD_SIZE := by
  intro h
  unfold RECORD_SIZE at h
  match k with
  | 0 => simp at h
  | 1 => simp at h
  | (n + 2) =>
    have h4 : (2 : Nat) ^ (n + 2) = 4 * 2 ^ n := by ring
    rw [h4] at h
    omega

/-- C6 counterexample: `RECORD_SIZE` is `0x1FFFFE` = 2,097,150, which
is neither 2,097,151 + 1 nor a power of two (it is 2 mod 4 and not 2). -/
theorem record_size_not_power_of_two :
    RECORD_SIZE = 2097150 ∧ 2097151 + 1 ≠ RECORD_SIZE ∧
    RECORD_SIZE % 4 = 2 ∧ RECORD_SIZE ≠ 2 := by decide

/-- C6 as amended: the slot count is `0x1FFFFE` = 2^21 − 2, not a power
of two, and the masked index `zob & (RECORD_SIZE − 1)` still never
exceeds `RECORD_SIZE − 1`. -/
theorem record_size_value_and_index_in_bounds :
    RECORD_SIZE = 2 ^ 21 - 2 ∧ (∀ k : Nat, 2 ^ k ≠ RECORD_SIZE) ∧
    ∀ zobrist_value : Nat, record_index zobrist_value ≤ RECORD_SIZE - 1 :=
  ⟨by decide, record_size_not_pow, fun _ => Nat.and_le_right⟩

/-- C10: for every Zobrist value the slot index
`zob & (RECORD_SIZE − 1)` is strictly below `RECORD_SIZE`, so the
records array is never indexed out of bounds even though `RECORD_SIZE`
is not a power of two. -/
theorem record_index_lt_record_size (zobrist_value : Nat) :
    record_index zobrist_value < RECORD_SIZE :=
  lt_of_le_of_lt Nat.and_le_right (by decide)

end XQ

namespace XQ

/-- `board.rs` `Board::empty`. -/
def Board.empty : Board :=
  { chesses := fun _ _ => Chess.None,
    turn := .Red,
    move_history := [],
    zobrist_history := [],
    check_history := [],
    zobrist_value := 0,
    zobrist_value_lock := 0,
    distance := 0,
    vl_red := 0,
    vl_black := 0 }

/-- `constant.rs` `FEN_MAP`. -/
def FEN_MAP : Char → Option Chess
  | 'k' => some (.Black .King)
  | 'a' => some (.Black .Advisor)
  | 'b' => some (.Black .Bishop)
  | 'n' => some (.Black .Knight)
  | 'r' => some (.Black .Rook)
  | 'c' => some (.Black .Cannon)
  | 'p' => some (.Black .Pawn)
  | 'K' => some (.Red .King)
  | 'A' => some (.Red .Advisor)
  | 'B' => some (.Red .Bishop)
  | 'N' => some (.Red .Knight)
  | 'R' => some (.Red .Rook)
  | 'C' => some (.Red .Cannon)
  | 'P' => some (.Red .Pawn)
  | _ => none

/-- Rust `str::split`: at least one (possibly empty) part. -/
def splitOnChar (sep : Char) : List Char → List (List Char)
  | [] => [[]]
  | c :: rest =>
    match splitOnChar sep rest with
    | [] => [[]]
    | h :: t => if c = sep then [] :: h :: t else (c :: h) :: t

/-- One character of a FEN rank in `Board::from_fen`.  Rust first tests
`col.is_numeric()` — membership in the Unicode numeric categories, a
host character table this embedding does not enumerate, so the
predicate is a parameter — and then runs `col.to_digit(10).unwrap()`,
which succeeds exactly on the ASCII digits and panics (`none`) on every
other numeric character.  Non-numeric characters place a piece when
`FEN_MAP` knows the letter (a write outside the 10x9 grid is the Rust
array-index panic, hence `none`) and are otherwise skipped, still
advancing one column. -/
def fen_row_step (is_numeric : Char → Bool) (i : Int) (st : Int × Board) (col : Char) :
    Option (Int × Board) :=
  let (j, b) := st
  if is_numeric col then
    if col.isDigit then some (j + ((col.toNat : Int) - ('0'.toNat : Int)), b)
    else none
  else
    match FEN_MAP col with
    | some chess =>
      if 0 ≤ i ∧ i < 10 ∧ 0 ≤ j ∧ j < 9 then some (j + 1, b.set_chess ⟨i, j⟩ chess)
      else none
    | none => some (j + 1, b)

/-- `char::is_numeric` restricted to the ASCII range, where the Unicode
numeric characters are exactly the digits `'0'..'9'`.  The concrete
evaluations below feed only ASCII FEN strings, on which this
restriction is exact. -/
def ascii_is_numeric (c : Char) : Bool := c.isDigit

/-- A fragment of `char::is_numeric` used by the C7 witness: the ASCII
digits plus U+0663 ARABIC-INDIC DIGIT THREE, a numeric character that
`to_digit(10)` rejects. -/
def demo_is_numeric (c : Char) : Bool := c.isDigit || c = '٣'

/-- `Board::from_fen`, parameterised by `char::is_numeric` (see
`fen_row_step`).  `none` models a Rust panic: the
`parts.next().unwrap()` for the missing side-to-move field, an
out-of-grid `set_chess` index, or the `to_digit(10).unwrap()` on a
non-ASCII numeric character. -/
def from_fen (is_numeric : Char → Bool) (zt ztl : Zobristable) (fen : List Char) :
    Option Board := do
  let parts := splitOnChar ' ' fen
  let pos := parts.headD []
  let step : Int × Board → List Char → Option (Int × Board) := fun st row => do
    let (i, b) := st
    let (_, b2) ← row.foldlM (fen_row_step is_numeric i) ((0 : Int), b)
    pure (i + 1, b2)
  let (_, b) ← (splitOnChar '/' pos).foldlM step ((0 : Int), Board.empty)
  let turn ← parts[1]?
  let b := if turn = ['b'] then { b with turn := Player.Black } else b
  let b := { b with
    zobrist_value := zt.calc_chesses b.chesses b.turn,
    zobrist_value_lock := ztl.calc_chesses b.chesses b.turn }
  let b := { b with zobrist_history := b.zobrist_history ++ [b.zobrist_value] }
  let b := { b with check_history := b.check_history ++ [b.is_checked b.turn] }
  pure b.update_initial_values

/-- The `moves` loop of `UCCIEngine::position` (`engine.rs`): each
entry is completed with the piece and capture from the current grid and
applied only if `is_move_legal` holds; an illegal entry is skipped and
the loop continues. -/
def apply_ucci_moves (zt ztl : Zobristable) (b : Board)
    (entries : List (Position × Position)) : Board :=
  entries.foldl (fun b ft =>
    let m : Move := { player := b.turn, from_pos := ft.1, to_pos := ft.2,
                      chess := b.chess_at ft.1, capture := b.chess_at ft.2 }
    if b.is_move_legal zt ztl m then b.apply_move zt ztl m else b) b

end XQ

namespace XQ

/-- C7 counterexample: `from_fen` aborts (unwrap panic) on the FEN
`"9"`, which has no side-to-move field; and in the UCCI `moves` loop an
illegal first entry (rook a0 to a9 through five pieces) does not stop
the sequence — the following legal pawn push is still applied. -/
theorem from_fen_abort_and_moves_continue :
    (from_fen ascii_is_numeric zTriv zTriv ['9']).isNone = true ∧
    (Board.init zTriv zTriv).is_move_legal zTriv zTriv
      { player := (Board.init zTriv zTriv).turn, from_pos := Position.mk 9 0,
        to_pos := Position.mk 0 0,
        chess := (Board.init zTriv zTriv).chess_at (Position.mk 9 0),
        capture := (Board.init zTriv zTriv).chess_at (Position.mk 0 0) } = false ∧
    (apply_ucci_moves zTriv zTriv (Board.init zTriv zTriv)
        [(Position.mk 9 0, Position.mk 0 0), (Position.mk 6 0, Position.mk 5 0)]).chess_at
      (Position.mk 5 0) = Chess.Red ChessType.Pawn := by decide

/-- C7 as amended: `from_fen` silently skips unknown non-numeric piece
letters (advancing one column); a numeric character outside the ASCII
digits aborts (`to_digit(10).unwrap()`); and the UCCI `moves` loop
skips an entry that fails legality, leaving the Position unchanged by
it, and continues with the remaining entries; `from_fen` is also not
abort-free on the turn field (see the counterexample).  The first two
parts hold for every `char::is_numeric` table. -/
theorem fen_skips_unknown_and_moves_skip_illegal :
    (∀ (is_numeric : Char → Bool) (i j : Int) (b : Board) (c : Char),
      FEN_MAP c = none → is_numeric c = false →
      fen_row_step is_numeric i (j, b) c = some (j + 1, b)) ∧
    (∀ (is_numeric : Char → Bool) (i j : Int) (b : Board) (c : Char),
      is_numeric c = true → c.isDigit = false →
      fen_row_step is_numeric i (j, b) c = none) ∧
    (∀ (zt ztl : Zobristable) (b : Board) (f t : Position)
        (rest : List (Position × Position)),
      b.is_move_legal zt ztl { player := b.turn, from_pos := f, to_pos := t,
                               chess := b.chess_at f, capture := b.chess_at t } = false →
      apply_ucci_moves zt ztl b ((f, t) :: rest) = apply_ucci_moves zt ztl b rest) := by
  refine ⟨?_, ?_, ?_⟩
  · intro is_numeric i j b c hm hnum
    simp [fen_row_step, hnum, hm]
  · intro is_numeric i j b c hnum hd
    simp [fen_row_step, hnum, hd]
  · intro zt ztl b f t rest hleg
    simp [apply_ucci_moves, hleg]

/-- Witness for the amended C7 at concrete inputs: the unknown letter
`'x'`, the non-ASCII numeric `'٣'` (U+0663), and an illegal first
moves entry. -/
theorem fen_skips_unknown_and_moves_skip_illegal_witness :
    (FEN_MAP 'x' = none ∧ ascii_is_numeric 'x' = false ∧
      demo_is_numeric '٣' = true ∧ '٣'.isDigit = false ∧
      (Board.init zTriv zTriv).is_move_legal zTriv zTriv
        { player := (Board.init zTriv zTriv).turn, from_pos := Position.mk 9 0,
          to_pos := Position.mk 0 0,
          chess := (Board.init zTriv zTriv).chess_at (Position.mk 9 0),
          capture := (Board.init zTriv zTriv).chess_at (Position.mk 0 0) } = false) ∧
    (fen_row_step ascii_is_numeric 0 ((0 : Int), Board.empty) 'x'
        = some ((0 : Int) + 1, Board.empty) ∧
      fen_row_step demo_is_numeric 0 ((0 : Int), Board.empty) '٣' = none ∧
      apply_ucci_moves zTriv zTriv (Board.init zTriv zTriv)
          [(Position.mk 9 0, Position.mk 0 0)]
        = apply_ucci_moves zTriv zTriv (Board.init zTriv zTriv) []) :=
  ⟨⟨by decide, by decide, by decide, by decide, by decide⟩,
   ⟨fen_skips_unknown_and_moves_skip_illegal.1 ascii_is_numeric 0 0 Board.empty 'x'
      (by decide) (by decide),
    fen_skips_unknown_and_moves_skip_illegal.2.1 demo_is_numeric 0 0 Board.empty '٣'
      (by decide) (by decide),
    fen_skips_unknown_and_moves_skip_illegal.2.2 zTriv zTriv (Board.init zTriv zTriv)
      (Position.mk 9 0) (Position.mk 0 0) [] (by decide)⟩⟩

/-- The scenario FEN of C8: all pawns removed, nothing between the two
Kings on the e-file. -/
def flyFen : List Char := "rnbakabnr/9/1c5c1/9/9/9/9/1C5C1/9/RNBAKABNR w".data

/-- C8: on the pawn-less FEN both Kings face each other on an open
file, so `is_checked` reports check for both sides (flying-general
rule); on the initial layout neither side is in check. -/
theorem flying_general_checks :
    ((from_fen ascii_is_numeric zTriv zTriv flyFen).map fun b =>
      (b.is_checked .Red, b.is_checked .Black)) = some (true, true) ∧
    (Board.init zTriv zTriv).is_checked .Red = false ∧
    (Board.init zTriv zTriv).is_checked .Black = false := by decide

end XQ

namespace XQ

/-- `Move::stay` — the placeholder move. -/
def Move.stay : Move :=
  { player := .Red, from_pos := ⟨0, 0⟩, to_pos := ⟨0, 0⟩, chess := .None, capture := .None }

/-- `search.rs` `HashFlag`. -/
inductive HashFlag where
  | Exact
  | Alpha
  | Beta
deriving DecidableEq, Repr

/-- `search.rs` `Record` — one transposition-table slot. -/
structure Record where
  zobrist_lock : Nat
  depth : Int
  flag : HashFlag
  best_move : Option Move
  value : Int

/-- `search.rs` `SearchState`.  The fixed-size vectors become
functions with the source's length guards (`records`: `RECORD_SIZE`
slots, `killer_table`: `MAX_DEPTH` pairs, `history_table`:
90 * 90 = 8100 counters); the three stacks are lists indexed like the
Rust `Vec`s (index 0 is the oldest entry). -/
structure SearchState where
  counter : Int
  gen_counter : Int
  move_history : List Move
  zobrist_history : List Nat
  check_history : List Bool
  records : Nat → Option Record
  distance : Int
  killer_table : Nat → Option Move × Option Move
  history_table : Nat → Int

/-- `SearchState::new`. -/
def SearchState.new : SearchState :=
  { counter := 0,
    gen_counter := 0,
    move_history := [],
    zobrist_history := [],
    check_history := [],
    records := fun _ => none,
    distance := 0,
    killer_table := fun _ => (none, none),
    history_table := fun _ => 0 }

namespace SearchState

/-- `SearchState::push_move`. -/
def push_move (zt ztl : Zobristable) (st : SearchState) (b : Board) (m : Move) :
    SearchState × Board :=
  let st := { st with zobrist_history := st.zobrist_history ++ [b.zobrist_value] }
  let b := b.apply_move zt ztl m
  let st := { st with
    check_history := st.check_history ++ [b.is_checked b.turn],
    move_history := st.move_history ++ [m],
    distance := st.distance + 1 }
  (st, b)

/-- `SearchState::pop_move` — note that it also overwrites the board
hash with the popped stack value (`unwrap_or(0)` when the stack is
empty). -/
def pop_move (zt ztl : Zobristable) (st : SearchState) (b : Board) (m : Move) :
    SearchState × Board :=
  let prev_zobrist := (st.zobrist_history.getLast?).getD 0
  let st := { st with
    zobrist_history := st.zobrist_history.dropLast,
    check_history := st.check_history.dropLast,
    move_history := st.move_history.dropLast }
  let b := b.undo_move zt ztl m
  let b := { b with zobrist_value := prev_zobrist }
  let st := { st with distance := st.distance - 1 }
  (st, b)

/-- `SearchState::push_null_move`. -/
def push_null_move (st : SearchState) (b : Board) : SearchState × Board :=
  let st := { st with zobrist_history := st.zobrist_history ++ [b.zobrist_value] }
  let b := b.do_null_move
  let st := { st with distance := st.distance + 1 }
  (st, b)

/-- `SearchState::pop_null_move`. -/
def pop_null_move (st : SearchState) (b : Board) : SearchState × Board :=
  let st := { st with zobrist_history := st.zobrist_history.dropLast }
  let b := b.undo_null_move
  let st := { st with distance := st.distance - 1 }
  (st, b)

/-- `SearchState::find_record` — probe the slot at
`zob & (RECORD_SIZE - 1)`, verify the lock, mate-adjust the stored
score toward the root, and cut when the stored depth and flag allow
it; otherwise surface the stored best move for ordering. -/
def find_record (st : SearchState) (b : Board) (alpha beta depth : Int) :
    Option Int × Option Move :=
  match st.records (record_index b.zobrist_value) with
  | some record =>
    if record.zobrist_lock = b.zobrist_value_lock then
      let value :=
        if record.value > 30000 then record.value - st.distance
        else if record.value < -30000 then record.value + st.distance
        else record.value
      if record.depth ≥ depth then
        match record.flag with
        | .Exact => (some value, record.best_move)
        | .Alpha =>
          if value ≤ alpha then (some value, record.best_move)
          else (none, record.best_move)
        | .Beta =>
          if value ≥ beta then (some value, record.best_move)
          else (none, record.best_move)
      else (none, record.best_move)
    else (none, none)
  | none => (none, none)

/-- `SearchState::add_record` — mate-adjust away from the root and
store, unless the occupying entry has strictly greater depth. -/
def add_record (st : SearchState) (b : Board) (depth value0 : Int) (flag : HashFlag)
    (best_move : Option Move) : SearchState :=
  let value :=
    if value0 > 30000 then value0 + st.distance
    else if value0 < -30000 then value0 - st.distance
    else value0
  let index := record_index b.zobrist_value
  let write : SearchState :=
    { st with records := fun n =>
                if n = index then
                  some { zobrist_lock := b.zobrist_value_lock, depth := depth, flag := flag,
                         best_move := best_move, value := value }
                else st.records n }
  match st.records index with
  | some old_record => if old_record.depth > depth then st else write
  | none => write

/-- `SearchState::history_index` (in-board coordinates; the Rust
`as usize` casts are total here via `Int.toNat`). -/
def history_index (mv : Move) : Nat :=
  ((mv.from_pos.row * 9 + mv.from_pos.col) * 90
    + (mv.to_pos.row * 9 + mv.to_pos.col)).toNat

/-- `SearchState::update_killer_move` (the caller passes
`self.distance as usize`; an out-of-range depth is a no-op). -/
def update_killer_move (st : SearchState) (mv : Move) (depth : Int) : SearchState :=
  if 0 ≤ depth ∧ depth < 64 then
    let d := depth.toNat
    match (st.killer_table d).1 with
    | some killer1 =>
      if killer1 ≠ mv then
        { st with killer_table := fun n =>
                    if n = d then (some mv, (st.killer_table d).1) else st.killer_table n }
      else st
    | none =>
      { st with killer_table := fun n =>
                  if n = d then (some mv, (st.killer_table d).2) else st.killer_table n }
  else st

/-- `SearchState::update_history`. -/
def update_history (st : SearchState) (mv : Move) (depth : Int) : SearchState :=
  let idx := history_index mv
  if idx < 8100 then
    { st with history_table := fun n =>
                if n = idx then st.history_table idx + depth * depth
                else st.history_table n }
  else st

/-- `SearchState::get_history_score`. -/
def get_history_score (st : SearchState) (mv : Move) : Int :=
  let idx := history_index mv
  if idx < 8100 then st.history_table idx else 0

end SearchState

/-- Rust `i32::MIN`, used as the sort key of the hash move. -/
def I32_MIN : Int := -2147483648

/-- The composite ordering key of `SearchState::sort_moves`: hash move
first, then the two killers, then MVV/LVA plus the history counter
(negated: the sort is ascending). -/
def move_sort_key (st : SearchState) (hash_move killer1 killer2 : Option Move)
    (mv : Move) : Int :=
  if hash_move = some mv then I32_MIN
  else if killer1 = some mv then I32_MIN + 1
  else if killer2 = some mv then I32_MIN + 2
  else
    let score :=
      (if mv.capture ≠ Chess.None then
        mv.capture.material_value * 10 - mv.chess.material_value else 0)
      + st.get_history_score mv;
    -score

/-- Stable insertion into a key-sorted list. -/
def insert_by_key (key : Move → Int) (m : Move) : List Move → List Move
  | [] => [m]
  | x :: xs => if key m < key x then m :: x :: xs else x :: insert_by_key key m xs

/-- Stable insertion sort by key.  The Rust code uses
`sort_unstable_by_key`, whose order on equal keys is unspecified; this
is one refinement of it. -/
def sort_by_key (key : Move → Int) : List Move → List Move
  | [] => []
  | x :: xs => insert_by_key key x (sort_by_key key xs)

namespace SearchState

/-- `SearchState::sort_moves`. -/
def sort_moves (st : SearchState) (moves : List Move) (hash_move : Option Move) :
    List Move :=
  let depth := st.distance
  let killer1 :=
    if 0 ≤ depth ∧ depth < 64 then (st.killer_table depth.toNat).1 else none
  let killer2 :=
    if 0 ≤ depth ∧ depth < 64 then (st.killer_table depth.toNat).2 else none
  sort_by_key (move_sort_key st hash_move killer1 killer2) moves

/-- `SearchState::rep_status` — walk the move stack backwards,
stopping at the first capture, alternating sides, AND-ing the check
flags for each side, and counting positions whose pre-move hash equals
the current hash. -/
def rep_status (st : SearchState) (b : Board) (recur : Int) : Int :=
  if st.move_history.isEmpty then 0
  else go st.move_history.length false true true recur
where
  go : Nat → Bool → Bool → Bool → Int → Int
  | 0, _, _, _, _ => 0
  | i + 1, self_side, perp_check, opp_perp_check, recur =>
    let m := st.move_history.getD i Move.stay
    if m.capture ≠ Chess.None then 0
    else if self_side then
      let perp_check :=
        if i < st.check_history.length then perp_check && st.check_history.getD i false
        else perp_check
      if i < st.zobrist_history.length ∧ st.zobrist_history.getD i 0 = b.zobrist_value then
        if recur - 1 ≤ 0 then
          1 + (if perp_check then 2 else 0) + (if opp_perp_check then 4 else 0)
        else go i (!self_side) perp_check opp_perp_check (recur - 1)
      else go i (!self_side) perp_check opp_perp_check recur
    else
      let opp_perp_check :=
        if i < st.check_history.length then
          opp_perp_check && st.check_history.getD i false
        else opp_perp_check
      go i (!self_side) perp_check opp_perp_check recur

/-- `SearchState::rep_value`. -/
def rep_value (st : SearchState) (rep : Int) : Int :=
  let BAN_VAL : Int := 30000 - 100
  let val_loss := -BAN_VAL + st.distance
  let val_win := BAN_VAL - st.distance
  if rep.land 2 ≠ 0 then val_loss
  else if rep.land 4 ≠ 0 then val_win
  else if st.distance.land 1 = 0 then -20 else 20

end SearchState

/-- The move list the quiescence search explores, from
`SearchState::quies`: the source tests `is_checked(turn.next())` — the
opponent of the side to move — and generates all moves when that test
holds, capture-only moves otherwise. -/
def quies_move_source (b : Board) : List Move :=
  if b.is_checked b.turn.next then b.generate_move false
  else b.generate_move true

end XQ

namespace XQ

/-- The `for m in moves` loop of `SearchState::quies`.  The recursive
quiescence call is the parameter `q` (the caller passes the
fuel-decremented `quies`). -/
def quies_loop (zt ztl : Zobristable)
    (q : SearchState → Board → Int → Int → Int × SearchState × Board)
    (st : SearchState) (b : Board) (alpha beta : Int) :
    List Move → Int × SearchState × Board
  | [] => (alpha, st, b)
  | m :: rest =>
    let (st1, b1) := SearchState.push_move zt ztl st b m
    if b1.is_checked b1.turn.next then
      let (st2, b2) := SearchState.pop_move zt ztl st1 b1 m
      quies_loop zt ztl q st2 b2 alpha beta rest
    else
      let (v0, st2, b2) := q st1 b1 (-beta) (-alpha)
      let v := -v0
      let (st3, b3) := SearchState.pop_move zt ztl st2 b2 m
      if v ≥ beta then (beta, st3, b3)
      else quies_loop zt ztl q st3 b3 (if v > alpha then v else alpha) beta rest

/-- `SearchState::quies`, with a fuel parameter for the Lean embedding
(the Rust recursion is bounded at run time by the
`distance > MAX_DEPTH` test; the theorems below evaluate at fuels
large enough that the fuel-exhausted case is never reached). -/
def quies (zt ztl : Zobristable) : Nat → SearchState → Board → Int → Int →
    Int × SearchState × Board
  | 0, st, b, _, _ => (0, st, b)
  | fuel + 1, st, b, alpha, beta =>
    if st.distance > MAX_DEPTH then (b.evaluate b.turn, st, b)
    else
      let v := b.evaluate b.turn
      if v ≥ beta then (beta, st, b)
      else
        let alpha := if v > alpha then v else alpha
        let moves := quies_move_source b
        let moves := st.sort_moves moves none
        quies_loop zt ztl (quies zt ztl fuel) st b alpha beta moves

/-- `NULL_MOVE_REDUCTION` from `alpha_beta_pvs_internal`. -/
def NULL_MOVE_REDUCTION : Int := 2

/-- The result type of one `alpha_beta_pvs_internal` node. -/
abbrev ABResult := (Int × Option Move) × SearchState × Board

/-- The shape of the recursive search call passed down to the phases of
`alpha_beta_pvs_internal`. -/
abbrev ABSearch := SearchState → Board → Int → Int → Int → Bool → ABResult

/-- The main move loop of `alpha_beta_pvs_internal`: legality filter,
check extension, PVS scout / re-search, beta cutoff with killer /
history / TT updates, and the mate return when no move was counted.
The recursive search call is the parameter `search`. -/
def ab_loop (zt ztl : Zobristable) (search : ABSearch) (st : SearchState) (b : Board)
    (depth alpha beta : Int) (hash_move_searched : Bool) (hash_move : Option Move) :
    List Move → Int → Int → Option Move → ABResult
  | [], count, best_value, best_move =>
    if count = 0 then ((MIN + st.distance, none), st, b)
    else
      let hash_flag := if best_value > alpha then HashFlag.Exact else HashFlag.Alpha
      let st := st.add_record b depth best_value hash_flag best_move
      ((best_value, best_move), st, b)
  | m :: rest, count, best_value, best_move =>
    if hash_move_searched && hash_move == some m then
      ab_loop zt ztl search st b depth alpha beta hash_move_searched hash_move rest
        count best_value best_move
    else
      let (st1, b1) := SearchState.push_move zt ztl st b m
      if b1.is_checked b1.turn.next then
        let (st2, b2) := SearchState.pop_move zt ztl st1 b1 m
        ab_loop zt ztl search st2 b2 depth alpha beta hash_move_searched hash_move rest
          count best_value best_move
      else
        let count := count + 1
        let new_depth := if b1.is_checked b1.turn then depth else depth - 1
        let (v, st3, b3) :=
          if count = 1 && !hash_move_searched then
            let (r, st2, b2) := search st1 b1 new_depth (-beta) (-alpha) true
            (-r.1, st2, b2)
          else
            let (r, st2, b2) := search st1 b1 new_depth (-(alpha + 1)) (-alpha) false
            let scout := -r.1
            if scout > alpha && scout < beta then
              let (r2, st2b, b2b) := search st2 b2 new_depth (-beta) (-alpha) true
              (-r2.1, st2b, b2b)
            else (scout, st2, b2)
        let (st4, b4) := SearchState.pop_move zt ztl st3 b3 m
        if v > best_value then
          if v ≥ beta then
            let st5 := st4.update_killer_move m st4.distance
            let st6 := st5.update_history m depth
            let st7 := st6.add_record b4 depth v .Beta (some m)
            ((v, some m), st7, b4)
          else if v > alpha then
            ab_loop zt ztl search st4 b4 depth v beta hash_move_searched hash_move rest
              count v (some m)
          else
            ab_loop zt ztl search st4 b4 depth alpha beta hash_move_searched hash_move
              rest count v best_move
        else
          ab_loop zt ztl search st4 b4 depth alpha beta hash_move_searched hash_move
            rest count best_value best_move

/-- Move generation, ordering and loop-state initialisation of
`alpha_beta_pvs_internal`. -/
def ab_gen (zt ztl : Zobristable) (search : ABSearch) (st : SearchState) (b : Board)
    (depth alpha beta : Int) (hash_move_searched : Bool) (hash_move : Option Move) :
    ABResult :=
  let moves := b.generate_move false
  let moves := st.sort_moves moves none
  let best_move := if hash_move_searched then hash_move else none
  let best_value := if best_move.isSome && decide (alpha > MIN) then alpha else MIN
  ab_loop zt ztl search st b depth alpha beta hash_move_searched hash_move moves
    0 best_value best_move

/-- The hash-move phase of `alpha_beta_pvs_internal`: validate the TT
move, search it first at full window, cut or raise alpha, then fall
through to the generated-move loop. -/
def ab_after_null (zt ztl : Zobristable) (search : ABSearch) (st : SearchState)
    (b : Board) (depth alpha beta : Int) (hash_move : Option Move) : ABResult :=
  match hash_move with
  | some hm =>
    if b.is_valid_move hm then
      let (st1, b1) := SearchState.push_move zt ztl st b hm
      if !(b1.is_checked b1.turn.next) then
        let (r, st2, b2) := search st1 b1 (depth - 1) (-beta) (-alpha) true
        let v := -r.1
        let (st3, b3) := SearchState.pop_move zt ztl st2 b2 hm
        if v ≥ beta then
          let st4 := st3.update_killer_move hm st3.distance
          let st5 := st4.update_history hm depth
          let st6 := st5.add_record b3 depth v .Beta (some hm)
          ((v, some hm), st6, b3)
        else
          let alpha := if v > alpha then v else alpha
          ab_gen zt ztl search st3 b3 depth alpha beta true hash_move
      else
        let (st3, b3) := SearchState.pop_move zt ztl st1 b1 hm
        ab_gen zt ztl search st3 b3 depth alpha beta false hash_move
    else ab_gen zt ztl search st b depth alpha beta false hash_move
  | none => ab_gen zt ztl search st b depth alpha beta false hash_move

/-- `SearchState::alpha_beta_pvs_internal` (fuel-indexed): TT probe,
repetition check, quiescence horizon, null-move pruning, then the hash
move and the generated-move loop. -/
def alpha_beta_pvs_internal (zt ztl : Zobristable) : Nat → SearchState → Board →
    Int → Int → Int → Bool → ABResult
  | 0, st, b, _, _, _, _ => ((0, none), st, b)
  | fuel + 1, st, b, depth, alpha, beta, allow_null =>
    match st.find_record b alpha beta depth with
    | (some v, hash_move) => ((v, hash_move), st, b)
    | (none, hash_move) =>
      let rep := if st.distance > 0 then st.rep_status b 1 else 0
      if rep > 0 then ((st.rep_value rep, none), st, b)
      else if depth = 0 then
        let st := { st with counter := st.counter + 1 }
        let (q, st, b) := quies zt ztl (fuel + 1) st b alpha beta
        ((q, none), st, b)
      else if allow_null && decide (depth ≥ 3) && !(b.is_checked b.turn)
          && null_move_okay b then
        let (st1, b1) := SearchState.push_null_move st b
        let (r, st2, b2) := alpha_beta_pvs_internal zt ztl fuel st1 b1
          (depth - NULL_MOVE_REDUCTION - 1) (-beta) (-beta + 1) false
        let (st3, b3) := SearchState.pop_null_move st2 b2
        if -r.1 ≥ beta then ((beta, none), st3, b3)
        else ab_after_null zt ztl (alpha_beta_pvs_internal zt ztl fuel) st3 b3
          depth alpha beta hash_move
      else ab_after_null zt ztl (alpha_beta_pvs_internal zt ztl fuel) st b
        depth alpha beta hash_move

/-- `SearchState::alpha_beta_pvs` — the public entry point
(`allow_null = true`). -/
def alpha_beta_pvs (zt ztl : Zobristable) (fuel : Nat) (st : SearchState) (b : Board)
    (depth alpha beta : Int) : ABResult :=
  alpha_beta_pvs_internal zt ztl fuel st b depth alpha beta true

end XQ

namespace XQ

/-- C3 scenario: Black to move and in check (Red rook on i9 attacks the
Black king on d9 along the open back rank); Red is not in check. -/
def c3Rows : List (List Chess) := [
  [.None, .None, .None, .Black .King, .None, .None, .None, .None, .Red .Rook],
  [.None, .None, .None, .None, .None, .None, .None, .None, .None],
  [.None, .None, .None, .None, .None, .None, .None, .None, .None],
  [.None, .None, .None, .None, .None, .None, .None, .None, .None],
  [.None, .None, .None, .None, .None, .None, .None, .None, .None],
  [.None, .None, .None, .None, .None, .None, .None, .None, .None],
  [.None, .None, .None, .None, .None, .None, .None, .None, .None],
  [.None, .None, .None, .None, .None, .None, .None, .None, .None],
  [.None, .None, .None, .None, .None, .None, .None, .None, .None],
  [.None, .None, .None, .None, .None, .Red .King, .None, .None, .None]]

def c3Board : Board :=
  ({ chesses := gridOfRows c3Rows, turn := .Black, move_history := [],
     zobrist_history := [], check_history := [], zobrist_value := 0,
     zobrist_value_lock := 0, distance := 0, vl_red := 0,
     vl_black := 0 } : Board).update_initial_values

/-- C3 (code-bug evidence): at `c3Board` the side to move is in check,
yet `quies` selects the capture-only move list, because the source
tests `is_checked(turn.next())` — the opponent — instead of
`is_checked(turn)`.  Here there is no capture, so the quiescence search
explores nothing and stands pat although legal check evasions exist. -/
theorem quies_captures_only_despite_check :
    c3Board.is_checked c3Board.turn = true ∧
    c3Board.is_checked c3Board.turn.next = false ∧
    quies_move_source c3Board = c3Board.generate_move true ∧
    c3Board.generate_move true = [] ∧
    c3Board.generate_move false ≠ [] ∧
    (quies zTriv zTriv 2 SearchState.new c3Board MIN MAX).1
      = c3Board.evaluate c3Board.turn := by decide

/-- C4 scenario: Red to move; the Red king's only legal move is e0-e1
(Black rooks on d9 and f9 cover the d and f files, the Black pawn on e5
blocks the flying-general face-off).  That move is stored in the
transposition table as the hash move of this position. -/
def c4Rows : List (List Chess) := [
  [.None, .None, .None, .Black .Rook, .Black .King, .Black .Rook, .None, .None, .None],
  [.None, .None, .None, .None, .None, .None, .None, .None, .None],
  [.None, .None, .None, .None, .None, .None, .None, .None, .None],
  [.None, .None, .None, .None, .None, .None, .None, .None, .None],
  [.None, .None, .None, .None, .Black .Pawn, .None, .None, .None, .None],
  [.None, .None, .None, .None, .None, .None, .None, .None, .None],
  [.None, .None, .None, .None, .None, .None, .None, .None, .None],
  [.None, .None, .None, .None, .None, .None, .None, .None, .None],
  [.None, .None, .None, .None, .None, .None, .None, .None, .None],
  [.None, .None, .None, .None, .Red .King, .None, .None, .None, .None]]

def c4Board : Board :=
  ({ chesses := gridOfRows c4Rows, turn := .Red, move_history := [],
     zobrist_history := [], check_history := [], zobrist_value := 0,
     zobrist_value_lock := 0, distance := 0, vl_red := 0,
     vl_black := 0 } : Board).update_initial_values

def c4HashMove : Move :=
  { player := .Red, from_pos := Position.mk 9 4, to_pos := Position.mk 8 4,
    chess := .Red .King, capture := .None }

def c4Record : Record :=
  { zobrist_lock := 0, depth := 0, flag := .Exact,
    best_move := some c4HashMove, value := 0 }

def c4State : SearchState :=
  { SearchState.new with
    records := fun n => if n = 0 then some c4Record else none }

/-- C4 (code-bug evidence): the node at `c4Board` (depth 1, full
window, `allow_null = true`) hits no TT cutoff — the probe returns the
hash move with no value — and no repetition or null-move cutoff, the
hash move is legal (so the side to move is not mated), yet the search
returns the mate-at-node score `MIN + distance` with no best move: the
`count == 0` mate test counts only the generated-move loop, which skips
the already-searched hash move. -/
theorem mate_score_despite_legal_hash_move :
    c4State.find_record c4Board MIN MAX 1 = (none, some c4HashMove) ∧
    c4Board.is_move_legal zTriv zTriv c4HashMove = true ∧
    ((c4Board.generate_move false).filter
      fun m => c4Board.is_move_legal zTriv zTriv m) = [c4HashMove] ∧
    (alpha_beta_pvs_internal zTriv zTriv 3 c4State c4Board 1 MIN MAX true).1
      = (MIN + c4State.distance, none) := by decide

end XQ

namespace XQ

theorem material_value_nonneg (ct : ChessType) : 0 ≤ ct.material_value := by
  cases ct <;> decide

theorem pst_cell_le_cell_value (c : Chess) (pos : Position) (p : Player) :
    pst_cell c pos p ≤ cell_value c pos p := by
  unfold pst_cell cell_value
  rcases hc : c.chess_type with _ | ct
  · cases c.belong_to p <;> simp
  · cases hb : c.belong_to p <;> simp [hb]
    have := material_value_nonneg ct
    omega

theorem get_player_score_le_computeVl (b : Board) (p : Player) :
    b.get_player_score p ≤ computeVl b.chesses p := by
  unfold Board.get_player_score computeVl
  apply Finset.sum_le_sum
  intro i hi
  apply Finset.sum_le_sum
  intro j hj
  rw [Finset.mem_range] at hi hj
  have hib : in_board ⟨(i : Int), (j : Int)⟩ = true := by
    simp only [in_board, BOARD_HEIGHT, BOARD_WIDTH, Bool.and_eq_true, decide_eq_true_eq]
    omega
  rw [chess_at_eq_chesses b _ hib]
  exact pst_cell_le_cell_value ..

/-- C5: whenever the null-move guard of `alpha_beta_pvs_internal`
holds, null moves are allowed, the remaining depth is at least 3, the
side to move is not in check, and its total PST+material value exceeds
200 (the source tests the PST-only score, which is a lower bound of the
PST+material sum); and when that guard holds at a node that passed the
TT, repetition and horizon stages, a null move is made and searched at
`depth − 3` (`NULL_MOVE_REDUCTION + 1`) with the window
`(−β, −β + 1)`, and if the negated result reaches `β` the node returns
`β` with no stored move. -/
theorem null_move_pruning_guard_and_cutoff (zt ztl : Zobristable) (fuel : Nat)
    (st : SearchState) (b : Board) (depth alpha beta : Int) (allow_null : Bool)
    (hguard : (allow_null && decide (depth ≥ 3) && !(b.is_checked b.turn)
      && null_move_okay b) = true) :
    (allow_null = true ∧ depth ≥ 3 ∧ b.is_checked b.turn = false ∧
      computeVl b.chesses b.turn > 200 ∧
      depth - NULL_MOVE_REDUCTION - 1 = depth - 3) ∧
    ((st.find_record b alpha beta depth).1 = none →
      (st.distance > 0 → st.rep_status b 1 ≤ 0) →
      depth ≠ 0 →
      -(alpha_beta_pvs_internal zt ztl fuel (SearchState.push_null_move st b).1
          (SearchState.push_null_move st b).2 (depth - NULL_MOVE_REDUCTION - 1)
          (-beta) (-beta + 1) false).1.1 ≥ beta →
      (alpha_beta_pvs_internal zt ztl (fuel + 1) st b depth alpha beta allow_null).1
        = (beta, none)) := by
  simp only [Bool.and_eq_true, Bool.not_eq_true', decide_eq_true_eq] at hguard
  obtain ⟨⟨⟨han, hd3⟩, hnc⟩, hok⟩ := hguard
  have hscore : b.get_player_score b.turn > 200 := by
    unfold null_move_okay at hok
    exact of_decide_eq_true hok
  refine ⟨⟨han, hd3, hnc, lt_of_lt_of_le hscore (get_player_score_le_computeVl b b.turn), by
    unfold NULL_MOVE_REDUCTION; ring⟩, ?_⟩
  intro hfr hrep hd0 hcut
  rw [alpha_beta_pvs_internal]
  rcases hp : st.find_record b alpha beta depth with ⟨o, hm⟩
  rw [hp] at hfr
  simp only at hfr
  subst hfr
  simp only
  rw [if_neg ?hrep0]
  case hrep0 =>
    by_cases hdz : st.distance > 0
    · simp only [if_pos hdz]
      have := hrep hdz
      omega
    · simp only [if_neg hdz]
      omega
  rw [if_neg hd0]
  rw [if_pos ?hg]
  case hg =>
    simp only [Bool.and_eq_true, Bool.not_eq_true', decide_eq_true_eq]
    exact ⟨⟨⟨han, hd3⟩, hnc⟩, hok⟩
  rcases hpush : SearchState.push_null_move st b with ⟨st1, b1⟩
  rw [hpush] at hcut
  simp only at hcut
  rcases hrec : alpha_beta_pvs_internal zt ztl fuel st1 b1
      (depth - NULL_MOVE_REDUCTION - 1) (-beta) (-beta + 1) false with ⟨r, st2, b2⟩
  rw [hrec] at hcut
  simp only at hcut
  rw [if_pos hcut]

end XQ

namespace XQ

/-- C5 witness scenario: Red to move, not in check, with a rook whose
PST value alone pushes the side score over 200. -/
def c5Rows : List (List Chess) := [
  [.None, .None, .None, .Black .King, .None, .None, .None, .None, .Red .Rook],
  [.None, .None, .None, .None, .None, .None, .None, .None, .None],
  [.None, .None, .None, .None, .None, .None, .None, .None, .None],
  [.None, .None, .None, .None, .None, .None, .None, .None, .None],
  [.None, .None, .None, .None, .None, .None, .None, .None, .None],
  [.None, .None, .None, .None, .None, .None, .None, .None, .None],
  [.None, .None, .None, .None, .None, .None, .None, .None, .None],
  [.None, .None, .None, .None, .None, .None, .None, .None, .None],
  [.None, .None, .None, .None, .None, .None, .None, .None, .None],
  [.None, .None, .None, .None, .Red .King, .None, .None, .None, .None]]

def c5Board : Board :=
  ({ chesses := gridOfRows c5Rows, turn := .Red, move_history := [],
     zobrist_history := [], check_history := [], zobrist_value := 0,
     zobrist_value_lock := 0, distance := 0, vl_red := 0,
     vl_black := 0 } : Board).update_initial_values

/-- Witness for C5 at `c5Board`, depth 3, `beta = -50000`: the null
move is tried and the fail-high cutoff fires. -/
theorem null_move_pruning_guard_and_cutoff_witness :
    ((true && decide ((3 : Int) ≥ 3) && !(c5Board.is_checked c5Board.turn)
        && null_move_okay c5Board) = true ∧
      (SearchState.new.find_record c5Board MIN (-50000) 3).1 = none ∧
      (SearchState.new.distance > 0 → SearchState.new.rep_status c5Board 1 ≤ 0) ∧
      (3 : Int) ≠ 0 ∧
      -(alpha_beta_pvs_internal zTriv zTriv 2
          (SearchState.push_null_move SearchState.new c5Board).1
          (SearchState.push_null_move SearchState.new c5Board).2
          ((3 : Int) - NULL_MOVE_REDUCTION - 1) (-(-50000)) (-(-50000) + 1)
          false).1.1 ≥ (-50000 : Int)) ∧
    (alpha_beta_pvs_internal zTriv zTriv 3 SearchState.new c5Board 3 MIN (-50000)
        true).1 = (-50000, none) :=
  ⟨⟨by decide, by decide, by decide, by decide, by decide⟩,
   (null_move_pruning_guard_and_cutoff zTriv zTriv 2 SearchState.new c5Board 3 MIN
      (-50000) true (by decide)).2 (by decide) (by decide) (by decide) (by decide)⟩

end XQ
